import Mathlib

/-!
Verification of the GitHub MCP ↔ TNOS bridge (`src/internal/bridge/github_mcp_bridge.py`,
`src/internal/bridge/mobius_compression.py`, `src/internal/server/mcp_server.py`).

The Python values that cross the bridge are JSON-like dictionaries.  We embed them
as the mutual inductive family `JVal` / `JArr` / `JObj` below (`JObj` is an
insertion-ordered dictionary, like a Python `dict`).  Environment-dependent
ingredients — the HMAC key derived from machine identity, `uuid.uuid4()`,
`time.time()` — enter the model as explicit parameters (`hmac : String → String`,
`newId : String`, `now : QNum`), and every theorem quantifies over them.
-/

/-- Numbers as they appear in the bridge's JSON traffic (Python `int`/`float`
values), represented as unnormalized integer fractions so that all arithmetic
reduces inside the kernel (Mathlib's `ℚ` normalizes through `Nat.gcd`, which the
kernel cannot unfold).  Every constructor used by the model keeps `den`
positive.  Structural equality on `QNum` is finer than Python's numeric `==`,
but every equality the embedded code performs compares two copies of one
identically-constructed value, so the difference is inert. -/
structure QNum where
  num : ℤ
  den : ℤ
deriving DecidableEq

def QNum.int (n : ℤ) : QNum := ⟨n, 1⟩

def QNum.add (a b : QNum) : QNum := ⟨a.num * b.den + b.num * a.den, a.den * b.den⟩

def QNum.sub (a b : QNum) : QNum := ⟨a.num * b.den - b.num * a.den, a.den * b.den⟩

def QNum.mul (a b : QNum) : QNum := ⟨a.num * b.num, a.den * b.den⟩

def QNum.div (a b : QNum) : QNum :=
  let n := a.num * b.den
  let d := a.den * b.num
  if d < 0 then ⟨-n, -d⟩ else ⟨n, d⟩

/-- `a < b` for positive denominators. -/
def QNum.blt (a b : QNum) : Bool := a.num * b.den < b.num * a.den

/-- `a ≤ b` for positive denominators. -/
def QNum.ble (a b : QNum) : Bool := a.num * b.den ≤ b.num * a.den

/-- Python string comparison: lexicographic on code points.  (Lean's built-in
`String.ltb` iterates over byte positions and does not reduce in the kernel.) -/
def charListLt : List Char → List Char → Bool
  | [], [] => false
  | [], _ :: _ => true
  | _ :: _, [] => false
  | a :: as, b :: bs =>
    if a.toNat < b.toNat then true
    else if b.toNat < a.toNat then false
    else charListLt as bs

def strLt (a b : String) : Bool := charListLt a.toList b.toList

def strLe (a b : String) : Bool := !(strLt b a)

mutual
inductive JVal where
  | null : JVal
  | bool : Bool → JVal
  | num : QNum → JVal
  | str : String → JVal
  | arr : JArr → JVal
  | obj : JObj → JVal
deriving DecidableEq

inductive JArr where
  | nil : JArr
  | cons : JVal → JArr → JArr
deriving DecidableEq

inductive JObj where
  | nil : JObj
  | cons : String → JVal → JObj → JObj
deriving DecidableEq
end

/-- Shorthand for integer-valued JSON numbers. -/
def JVal.int (n : ℤ) : JVal := .num (.int n)

/-- `isinstance(v, dict)`. -/
def JVal.isObj : JVal → Bool
  | .obj _ => true
  | _ => false

/-- `type(v).__name__`, as it appears in a raised `AttributeError`'s text; an
embedded number counts as `int` exactly when its denominator is `1`, the same
test `numRepr` uses to serialize it without a decimal point. -/
def pyTypeName : JVal → String
  | .null => "NoneType"
  | .bool _ => "bool"
  | .num q => if q.den = 1 then "int" else "float"
  | .str _ => "str"
  | .arr _ => "list"
  | .obj _ => "dict"

/-- Dictionary lookup, `d[k]` / `d.get(k)`: value of the first binding of `k`. -/
def JObj.get : JObj → String → Option JVal
  | .nil, _ => none
  | .cons k' v tl, k => if k' = k then some v else tl.get k

/-- `d.get(k, default)`. -/
def JObj.getD (o : JObj) (k : String) (d : JVal) : JVal := (o.get k).getD d

/-- Dictionary assignment `d[k] = v`: replaces the binding in place if the key
exists, otherwise appends it at the end (CPython insertion order). -/
def JObj.set : JObj → String → JVal → JObj
  | .nil, k, v => .cons k v .nil
  | .cons k' v' tl, k, v => if k' = k then .cons k' v tl else .cons k' v' (tl.set k v)

/-- `del d[k]`: removes the first binding of `k`. -/
def JObj.erase : JObj → String → JObj
  | .nil, _ => .nil
  | .cons k' v tl, k => if k' = k then tl else .cons k' v (tl.erase k)

/-- `k in d`. -/
def JObj.hasKey : JObj → String → Bool
  | .nil, _ => false
  | .cons k' _ tl, k => k' = k || tl.hasKey k

/-- The keys of a dictionary in insertion order (`list(d.keys())`). -/
def JObj.keys : JObj → List String
  | .nil => []
  | .cons k _ tl => k :: tl.keys

theorem JObj.get_eq_none_of_not_hasKey :
    ∀ (o : JObj) (k : String), o.hasKey k = false → o.get k = none
  | .nil, _, _ => rfl
  | .cons k' _ tl, k, h => by
    simp only [JObj.hasKey, Bool.or_eq_false_iff, decide_eq_false_iff_not] at h
    simp only [JObj.get, if_neg h.1, JObj.get_eq_none_of_not_hasKey tl k h.2]

/-- Setting an absent key appends it at the end; erasing it again restores the
original dictionary.  This is the identity `verify_message` relies on: deleting
the `signature` entry that `sign_message` added recovers the exact dictionary
that was serialized when the signature was computed. -/
theorem JObj.erase_set_of_not_hasKey :
    ∀ (o : JObj) (k : String) (v : JVal), o.hasKey k = false → (o.set k v).erase k = o
  | .nil, k, v, _ => by simp [JObj.set, JObj.erase]
  | .cons k' v' tl, k, v, h => by
    simp only [JObj.hasKey, Bool.or_eq_false_iff, decide_eq_false_iff_not] at h
    simp only [JObj.set, if_neg h.1, JObj.erase, if_neg h.1,
      JObj.erase_set_of_not_hasKey tl k v h.2]

/-! ### Serialization: `json.dumps`

Python's `json.dumps` with the default separators `", "` / `": "` and
`ensure_ascii=True`.  `sign_message` / `verify_message` additionally pass
`sort_keys=True`; that variant is `canonDumps` below, obtained by recursively
sorting all object keys first. -/

def hexDigit (n : Nat) : Char := if n < 10 then Char.ofNat (48 + n) else Char.ofNat (87 + n)

def hex4 (n : Nat) : String :=
  String.mk [hexDigit (n / 4096 % 16), hexDigit (n / 256 % 16), hexDigit (n / 16 % 16),
    hexDigit (n % 16)]

/-- Escape one character the way Python's `json` encoder does with
`ensure_ascii=True`: printable ASCII is kept, the two-character escapes are used
for the JSON short escapes, everything else becomes `\uXXXX` (with a surrogate
pair above the BMP). -/
def escChar (c : Char) : String :=
  if c = '"' then "\\\"" else
  if c = '\\' then "\\\\" else
  if c = '\n' then "\\n" else
  if c = '\r' then "\\r" else
  if c = '\t' then "\\t" else
  if c.toNat = 8 then "\\b" else
  if c.toNat = 12 then "\\f" else
  if 32 ≤ c.toNat ∧ c.toNat ≤ 126 then String.singleton c else
  if c.toNat ≤ 65535 then "\\u" ++ hex4 c.toNat else
  "\\u" ++ hex4 (55296 + (c.toNat - 65536) / 1024) ++ "\\u" ++ hex4 (56320 + (c.toNat - 65536) % 1024)

def escString (s : String) : String :=
  "\"" ++ String.join (s.toList.map escChar) ++ "\""

/-- Least `e ≤ 25` with `d ∣ 10 ^ e`, if any. -/
def decExp (d : Nat) : Option Nat := (List.range 26).find? (fun e => 10 ^ e % d = 0)

def padZeros (n : Nat) (s : String) : String :=
  String.mk (List.replicate (n - s.length) '0') ++ s

/-- Rendering of a JSON number.  Integers print as in Python; decimal fractions
print with a decimal point.  (Python renders `float` values through `repr`;
no claim compares serializations of distinct values, and the concrete inputs of
every witness and counterexample are integers, where the two renderings agree up
to the immaterial `42` / `42.0` distinction.) -/
def numRepr (q : QNum) : String :=
  if q.den = 1 then toString q.num
  else match decExp q.den.natAbs with
    | some e =>
      let m := (q.num * (10 ^ e : ℤ) / q.den).natAbs
      (if q.num < 0 then "-" else "") ++ toString (m / 10 ^ e) ++ "." ++
        padZeros e (toString (m % 10 ^ e))
    | none => toString q.num ++ "/" ++ toString q.den

def lbrace : String := "\x7b"
def rbrace : String := "\x7d"

mutual

def JVal.dumps : JVal → String
  | .null => "null"
  | .bool true => "true"
  | .bool false => "false"
  | .num q => numRepr q
  | .str s => escString s
  | .arr xs => "[" ++ xs.dumpsItems ++ "]"
  | .obj fs => lbrace ++ fs.dumpsItems ++ rbrace

def JArr.dumpsItems : JArr → String
  | .nil => ""
  | .cons v .nil => v.dumps
  | .cons v tl => v.dumps ++ ", " ++ tl.dumpsItems

def JObj.dumpsItems : JObj → String
  | .nil => ""
  | .cons k v .nil => escString k ++ ": " ++ v.dumps
  | .cons k v tl => escString k ++ ": " ++ v.dumps ++ ", " ++ tl.dumpsItems

end

/-- Insert a binding into a key-sorted dictionary (ascending code-point order,
as Python's `sorted`). -/
def JObj.insortField (k : String) (v : JVal) : JObj → JObj
  | .nil => .cons k v .nil
  | .cons k' v' tl =>
    if strLe k k' then .cons k v (.cons k' v' tl) else .cons k' v' (tl.insortField k v)

mutual

/-- Recursively sort the keys of every object, the effect of `sort_keys=True`. -/
def JVal.sortKeysDeep : JVal → JVal
  | .null => .null
  | .bool b => .bool b
  | .num q => .num q
  | .str s => .str s
  | .arr xs => .arr xs.sortKeysDeep
  | .obj fs => .obj fs.sortKeysDeep

def JArr.sortKeysDeep : JArr → JArr
  | .nil => .nil
  | .cons v tl => .cons v.sortKeysDeep tl.sortKeysDeep

def JObj.sortKeysDeep : JObj → JObj
  | .nil => .nil
  | .cons k v tl => tl.sortKeysDeep.insortField k v.sortKeysDeep

end

/-- `json.dumps(x, sort_keys=True)`. -/
def canonDumps (v : JVal) : String := v.sortKeysDeep.dumps

/-! ### Parsing: `json.loads`

A straightforward executable JSON reader.  It is used exactly where the source
calls `json.loads`: the string-content branch of
`translate_tnos_to_github_response` and the two `json.loads` sites of
`MobiusCompression.decompress`.  General theorems that depend on a
load-after-dump round trip take that round trip as an explicit hypothesis on the
concrete value involved, and each witness discharges it by evaluation. -/

def skipWs : List Char → List Char
  | [] => []
  | c :: tl => if c = ' ' ∨ c = '\t' ∨ c = '\n' ∨ c = '\r' then skipWs tl else c :: tl

def dropLit : List Char → List Char → Option (List Char)
  | [], cs => some cs
  | l :: ls, c :: cs => if c = l then dropLit ls cs else none
  | _ :: _, [] => none

def digitVal (c : Char) : Option Nat :=
  if 48 ≤ c.toNat ∧ c.toNat ≤ 57 then some (c.toNat - 48) else none

def hexVal (c : Char) : Option Nat :=
  if 48 ≤ c.toNat ∧ c.toNat ≤ 57 then some (c.toNat - 48)
  else if 97 ≤ c.toNat ∧ c.toNat ≤ 102 then some (c.toNat - 87)
  else if 65 ≤ c.toNat ∧ c.toNat ≤ 70 then some (c.toNat - 55)
  else none

/-- Read a maximal digit run: value, number of digits, rest. -/
def readDigits : List Char → Nat → Nat → Nat × Nat × List Char
  | [], acc, n => (acc, n, [])
  | c :: tl, acc, n =>
    match digitVal c with
    | some d => readDigits tl (acc * 10 + d) (n + 1)
    | none => (acc, n, c :: tl)

/-- Parse a JSON number (integer part, optional fraction, optional exponent). -/
def parseNumber (cs : List Char) : Option (QNum × List Char) :=
  let (neg, cs₁) := match cs with
    | '-' :: tl => (true, tl)
    | _ => (false, cs)
  let (ip, ipn, cs₂) := readDigits cs₁ 0 0
  if ipn = 0 then none else
  let (frac, fn, cs₃) := match cs₂ with
    | '.' :: tl =>
      let (f, n, rest) := readDigits tl 0 0
      (f, n, rest)
    | _ => ((0 : Nat), (0 : Nat), cs₂)
  let (ex, cs₄) : ℤ × List Char := match cs₃ with
    | 'e' :: tl | 'E' :: tl =>
      (match tl with
       | '-' :: tl' => let (e, _, rest) := readDigits tl' 0 0; (-(e : ℤ), rest)
       | '+' :: tl' => let (e, _, rest) := readDigits tl' 0 0; ((e : ℤ), rest)
       | _ => let (e, _, rest) := readDigits tl 0 0; ((e : ℤ), rest))
    | _ => ((0 : ℤ), cs₃)
  if fn = 0 ∧ ex = 0 then
    some (QNum.int (if neg then -(ip : ℤ) else (ip : ℤ)), cs₄)
  else
    let mantissa : ℤ := (ip : ℤ) * (10 ^ fn : ℤ) + (frac : ℤ)
    let q : QNum :=
      if 0 ≤ ex then ⟨mantissa * 10 ^ ex.toNat, (10 : ℤ) ^ fn⟩
      else ⟨mantissa, (10 : ℤ) ^ (fn + (-ex).toNat)⟩
    some ((if neg then ⟨-q.num, q.den⟩ else q), cs₄)

/-- Read the body of a JSON string after the opening quote. -/
def readStrChars : List Char → Option (List Char × List Char)
  | [] => none
  | '"' :: rest => some ([], rest)
  | '\\' :: 'u' :: a :: b :: c :: d :: rest => do
    let n := (← hexVal a) * 4096 + (← hexVal b) * 256 + (← hexVal c) * 16 + (← hexVal d)
    let (content, rest') ← readStrChars rest
    pure (Char.ofNat n :: content, rest')
  | '\\' :: e :: rest => do
    let c ← match e with
      | '"' => some '"'
      | '\\' => some '\\'
      | '/' => some '/'
      | 'n' => some '\n'
      | 't' => some '\t'
      | 'r' => some '\r'
      | 'b' => some (Char.ofNat 8)
      | 'f' => some (Char.ofNat 12)
      | _ => none
    let (content, rest') ← readStrChars rest
    pure (c :: content, rest')
  | c :: rest => do
    let (content, rest') ← readStrChars rest
    pure (c :: content, rest')

mutual

def parseVal : Nat → List Char → Option (JVal × List Char)
  | 0, _ => none
  | fuel + 1, cs =>
    match skipWs cs with
    | '"' :: rest =>
      (readStrChars rest).map (fun p => (.str (String.mk p.1), p.2))
    | '[' :: rest =>
      (match skipWs rest with
       | ']' :: rest' => some (.arr .nil, rest')
       | rest' => (parseArrItems fuel rest').map (fun p => (.arr p.1, p.2)))
    | 'n' :: rest => (dropLit ['u', 'l', 'l'] rest).map (fun r => (.null, r))
    | 't' :: rest => (dropLit ['r', 'u', 'e'] rest).map (fun r => (.bool true, r))
    | 'f' :: rest => (dropLit ['a', 'l', 's', 'e'] rest).map (fun r => (.bool false, r))
    | c :: rest =>
      if c = lbrace.toList.head! then
        (match skipWs rest with
         | c' :: rest' =>
           if c' = rbrace.toList.head! then some (.obj .nil, rest')
           else (parseObjItems fuel (c' :: rest')).map (fun p => (.obj p.1, p.2))
         | [] => none)
      else (parseNumber (c :: rest)).map (fun p => (.num p.1, p.2))
    | [] => none

def parseArrItems : Nat → List Char → Option (JArr × List Char)
  | 0, _ => none
  | fuel + 1, cs =>
    match parseVal fuel cs with
    | none => none
    | some (v, rest) =>
      match skipWs rest with
      | ',' :: rest' =>
        (parseArrItems fuel rest').map (fun p => (.cons v p.1, p.2))
      | ']' :: rest' => some (.cons v .nil, rest')
      | _ => none

def parseObjItems : Nat → List Char → Option (JObj × List Char)
  | 0, _ => none
  | fuel + 1, cs =>
    match skipWs cs with
    | '"' :: rest =>
      (match readStrChars rest with
       | none => none
       | some (kcs, rest₁) =>
         match skipWs rest₁ with
         | ':' :: rest₂ =>
           (match parseVal fuel rest₂ with
            | none => none
            | some (v, rest₃) =>
              match skipWs rest₃ with
              | ',' :: rest₄ =>
                (parseObjItems fuel rest₄).map (fun p => (.cons (String.mk kcs) v p.1, p.2))
              | c :: rest₄ =>
                if c = rbrace.toList.head! then some (.cons (String.mk kcs) v .nil, rest₄)
                else none
              | [] => none)
         | _ => none)
    | _ => none

end

/-- `json.loads`: `none` models a raised `json.JSONDecodeError`. -/
def jsonLoads (s : String) : Option JVal :=
  let cs := s.toList
  match parseVal (cs.length + 1) cs with
  | some (v, rest) => if skipWs rest = [] then some v else none
  | none => none

/-! ### Association-list helpers for Python dictionaries with non-JSON values -/

def alistGet {α : Type} : List (String × α) → String → Option α
  | [], _ => none
  | (k', v) :: tl, k => if k' = k then some v else alistGet tl k

def alistSet {α : Type} : List (String × α) → String → α → List (String × α)
  | [], k, v => [(k, v)]
  | (k', v') :: tl, k, v => if k' = k then (k', v) :: tl else (k', v') :: alistSet tl k v

def JObj.ofList : List (String × JVal) → JObj
  | [] => .nil
  | (k, v) :: tl => .cons k v (JObj.ofList tl)

def JArr.ofList : List JVal → JArr
  | [] => .nil
  | v :: tl => .cons v (JArr.ofList tl)

def JArr.toList : JArr → List JVal
  | .nil => []
  | .cons v tl => v :: JArr.toList tl

/-- `a.startswith(b)`. -/
def startsWithCL : List Char → List Char → Bool
  | _, [] => true
  | [], _ :: _ => false
  | a :: as, b :: bs => a = b && startsWithCL as bs

def pyStartsWith (s pre : String) : Bool := startsWithCL s.toList pre.toList

/-- Python `str()` as interpolated into f-strings, for the values that occur in
the bridge (for containers Python's `repr` uses single quotes; no claim ever
renders a container this way). -/
def pyStr : JVal → String
  | .str s => s
  | .num q => numRepr q
  | .bool true => "True"
  | .bool false => "False"
  | .null => "None"
  | v => v.dumps

/-! ### `EnhancedMessageValidator` (github_mcp_bridge.py 361-510)

`_generate_hmac_key` derives the HMAC key from `uuid.getnode()`, the module
path, and `os.getlogin()`; the keyed function `HMAC-SHA256(key, ·).hexdigest()`
is therefore environment-dependent and enters the model as an opaque parameter
`hmac : String → String`.  `uuid.uuid4()` and `time.time()` likewise become the
parameters `newId` and `now`.  The replay deque `self.message_ids =
collections.deque(maxlen=1000)` is the `List JVal` threaded through
`verifyMessage` (ids are values taken from `meta["message_id"]`, hence `JVal`).
-/

/-- A Python call result: either a returned value or a raised exception. -/
inductive PyResult (α : Type) where
  | ok : α → PyResult α
  | exn : String → PyResult α
deriving DecidableEq

/-- `collections.deque(maxlen=1000).append`: drop from the left when full. -/
def dequeAppend (maxlen : Nat) (ids : List JVal) (id : JVal) : List JVal :=
  let l := ids ++ [id]
  if l.length > maxlen then l.drop (l.length - maxlen) else l

/-- `EnhancedMessageValidator.sign_message` (lines 417-447).  Adds
`meta.message_id` and `meta.timestamp`, serializes the frame with sorted keys,
and appends the HMAC hex digest as `meta.signature`.   A non-dict message is
returned unchanged; a dict whose existing `meta` value is not itself a dict
raises `TypeError` at the `signed_message["meta"]["message_id"] = ...` item
assignment. -/
def signMessage (hmac : String → String) (newId : String) (now : QNum)
    (message : JVal) : PyResult JVal :=
  match message with
  | .obj fields =>
    match fields.getD "meta" (.obj .nil) with
    | .obj mfs =>
      let mfs₁ := (mfs.set "message_id" (.str newId)).set "timestamp" (.num now)
      let fields₁ := fields.set "meta" (.obj mfs₁)
      let messageStr := canonDumps (.obj fields₁)
      let signature := hmac messageStr
      .ok (.obj (fields₁.set "meta" (.obj (mfs₁.set "signature" (.str signature)))))
    | _ => .exn "TypeError"
  | m => .ok m

inductive VerifyOut where
  | ret : Bool → String → VerifyOut
  | exn : String → VerifyOut
deriving DecidableEq

structure VerifyResult where
  out : VerifyOut
  messageIds : List JVal
deriving DecidableEq

/-- `EnhancedMessageValidator.verify_message` (lines 449-510).  The checks run
in source order: structure, presence of `message_id` / `timestamp` /
`signature`, freshness (`current_time - message_time > 300` rejects), replay
(`message_id in self.message_ids` rejects), then — after the id has already
been appended to the deque — the signature comparison.  A non-numeric timestamp
raises `TypeError` at the subtraction; a non-string signature raises inside
`hmac.compare_digest` (after the deque append). -/
def verifyMessage (hmac : String → String) (now : QNum) (ids : List JVal)
    (message : JVal) : VerifyResult :=
  match message with
  | .obj fields =>
    if !(fields.hasKey "meta") then ⟨.ret false "Missing meta information", ids⟩
    else
      match fields.getD "meta" (.obj .nil) with
      | .obj mfs =>
        if !(mfs.hasKey "message_id") then ⟨.ret false "Missing message ID", ids⟩
        else if !(mfs.hasKey "timestamp") then ⟨.ret false "Missing timestamp", ids⟩
        else if !(mfs.hasKey "signature") then ⟨.ret false "Missing signature", ids⟩
        else
          match mfs.getD "timestamp" .null with
          | .num ts =>
            if QNum.blt (QNum.int 300) (now.sub ts) then ⟨.ret false "Message expired", ids⟩
            else
              let messageId := mfs.getD "message_id" .null
              if messageId ∈ ids then ⟨.ret false "Message replay detected", ids⟩
              else
                let ids' := dequeAppend 1000 ids messageId
                match mfs.getD "signature" .null with
                | .str originalSignature =>
                  let fields' := fields.set "meta" (.obj (mfs.erase "signature"))
                  let expected := hmac (canonDumps (.obj fields'))
                  if originalSignature = expected then ⟨.ret true "Message verified", ids'⟩
                  else ⟨.ret false "Invalid signature", ids'⟩
                | _ => ⟨.exn "TypeError", ids'⟩
          | _ => ⟨.exn "TypeError", ids⟩
      | _ => ⟨.ret false "Meta is not a dictionary", ids⟩
  | _ => ⟨.ret false "Message is not a dictionary", ids⟩

/-! ### `RateLimiter` (github_mcp_bridge.py 894-1061) -/

def globalLimit : Nat := 100

def toolLimits : List (String × Nat) :=
  [("semantic_search", 30), ("list_code_usages", 20), ("read_file", 40), ("list_dir", 30),
   ("get_errors", 20), ("run_in_terminal", 5), ("get_terminal_output", 10),
   ("file_search", 15), ("grep_search", 15), ("insert_edit_into_file", 10)]

structure RateState where
  globalRequests : List QNum
  toolRequests : List (String × List QNum)
  exceededAttempts : List (String × List QNum)
deriving DecidableEq

/-- `RateLimiter.__init__`: every tool with a limit starts with an empty
tracking list. -/
def RateState.init : RateState :=
  ⟨[], toolLimits.map (fun p => (p.1, [])), []⟩

/-- `RateLimiter._clean_old_requests`: keep `current_time - req_time < 60`. -/
def cleanOldRequests (now : QNum) (l : List QNum) : List QNum :=
  l.filter (fun t => QNum.blt (now.sub t) (QNum.int 60))

/-- `RateLimiter._track_exceeded_attempt` (state effect only; the security-alert
log line has no further effect). -/
def trackExceeded (now : QNum) (ea : List (String × List QNum))
    (limitType toolName : String) : List (String × List QNum) :=
  let key := limitType ++ ":" ++ toolName
  alistSet ea key ((alistGet ea key).getD [] ++ [now])

/-- `RateLimiter.check_rate_limit` (lines 942-991): returns the boolean outcome
and the mutated limiter state.  Note that the cleaning of stale entries persists
even when the request is denied, but a denied request appends no timestamp. -/
def checkRateLimit (now : QNum) (rs : RateState) (toolName : String) :
    Bool × RateState :=
  let g := cleanOldRequests now rs.globalRequests
  let rs₁ : RateState := { rs with globalRequests := g }
  if globalLimit ≤ g.length then
    (false, { rs₁ with exceededAttempts := trackExceeded now rs₁.exceededAttempts "global" toolName })
  else
    match alistGet rs₁.toolRequests toolName with
    | some tl =>
      let tl' := cleanOldRequests now tl
      let rs₂ : RateState := { rs₁ with toolRequests := alistSet rs₁.toolRequests toolName tl' }
      match alistGet toolLimits toolName with
      | some lim =>
        if lim ≤ tl'.length then
          (false, { rs₂ with exceededAttempts := trackExceeded now rs₂.exceededAttempts toolName toolName })
        else
          (true, { rs₂ with
                    globalRequests := g ++ [now],
                    toolRequests := alistSet rs₂.toolRequests toolName (tl' ++ [now]) })
      | none =>
        (true, { rs₂ with
                  globalRequests := g ++ [now],
                  toolRequests := alistSet rs₂.toolRequests toolName (tl' ++ [now]) })
    | none => (true, { rs₁ with globalRequests := g ++ [now] })

/-- First minimum of a list, as Python's `min`. -/
def minQ : List QNum → Option QNum
  | [] => none
  | x :: tl =>
    match minQ tl with
    | some m => some (if QNum.ble x m then x else m)
    | none => some x

/-- `RateLimiter.get_remaining_quota` (lines 1014-1044): returns the quota
dictionary and the (cleaned) limiter state. -/
def getRemainingQuota (now : QNum) (rs : RateState) (toolName : String) :
    JObj × RateState :=
  let g := cleanOldRequests now rs.globalRequests
  let rs₁ : RateState := { rs with globalRequests := g }
  let rs₂ : RateState :=
    match alistGet rs₁.toolRequests toolName with
    | some tl => { rs₁ with toolRequests := alistSet rs₁.toolRequests toolName (cleanOldRequests now tl) }
    | none => rs₁
  let globalRemaining : ℤ := (globalLimit : ℤ) - g.length
  let toolRemaining : JVal :=
    match alistGet toolLimits toolName with
    | some lim => .int ((lim : ℤ) - (((alistGet rs₂.toolRequests toolName).getD []).length : ℤ))
    | none => .null
  let resetIn : QNum :=
    QNum.sub (QNum.int 60) (match minQ g with
      | some m => now.sub m
      | none => QNum.int 0)
  (JObj.ofList [("global_remaining", .int globalRemaining),
    ("tool_remaining", toolRemaining),
    ("reset_in_seconds", .num resetIn)], rs₂)

/-! ### 7D context and MCP messages

`MCPContext` / `MCPMessage` are imported by the bridge from
`mcp.protocol.mcp_protocol`, a module that is not part of this repository's
sources; the repository's own definition of the same classes lives in
`src/internal/server/mcp_server.py` (lines 96-178) and is the one embedded
here.  Its constructor defaults agree with the bridge's comment that `when` is
set to the current timestamp by the `MCPContext` constructor. -/

structure MCPContext where
  who : JVal
  what : JVal
  whenD : JVal
  whereD : JVal
  why : JVal
  how : JVal
  extent : JVal
  metadata : JObj
deriving DecidableEq

/-- `MCPContext.__init__` (mcp_server.py 101-109); `nowIso` stands for
`datetime.datetime.now().isoformat()`. -/
def MCPContext.init (nowIso : String) : MCPContext :=
  ⟨.str "System", .str "Initialize", .str nowIso, .str "MCP_Server", .str "Startup",
   .str "Default", .str "System", .nil⟩

structure MCPMessage where
  message_id : String
  message_type : String
  content : JVal
  timestamp : QNum
  context : MCPContext
deriving DecidableEq

/-- `MCPContext.to_dict` (mcp_server.py 126-137). -/
def MCPContext.toDict (c : MCPContext) : JObj :=
  JObj.ofList
    [("who", c.who), ("what", c.what), ("when", c.whenD), ("where", c.whereD),
     ("why", c.why), ("how", c.how), ("extent", c.extent),
     ("metadata", .obj c.metadata)]

/-- `MCPMessage.to_dict` (mcp_server.py 170-178): the dict whose `json.dumps`
is what `to_json` yields and `self.tnos_ws_connection.send` writes to the TNOS
socket (bridge line 1480). -/
def MCPMessage.toDict (m : MCPMessage) : JObj :=
  JObj.ofList
    [("message_id", .str m.message_id), ("message_type", .str m.message_type),
     ("content", m.content), ("timestamp", .num m.timestamp),
     ("context", .obj m.context.toDict)]

/-- `MCPMessage.to_json`: the exact string written to the TNOS socket. -/
def MCPMessage.toJson (m : MCPMessage) : String := (JVal.obj m.toDict).dumps

/-! ### `GitHubTNOSBridge` translation (github_mcp_bridge.py 1130-1257) -/

/-- `GitHubTNOSBridge._build_tool_mapping` (lines 1130-1157). -/
def toolMapping : List (String × String) :=
  [("get_file_contents", "file_read_operation"),
   ("list_branches", "version_control_operation"),
   ("create_or_update_file", "file_write_operation"),
   ("search_repositories", "search_operation"),
   ("get_issue", "task_management_operation"),
   ("create_issue", "task_creation_operation"),
   ("list_issues", "task_listing_operation"),
   ("get_pull_request", "code_review_operation"),
   ("list_pull_requests", "code_review_listing_operation"),
   ("get_pull_request_files", "code_diff_operation"),
   ("list_code_scanning_alerts", "security_analysis_operation"),
   ("get_code_scanning_alert", "security_detail_operation")]

/-- `GitHubTNOSBridge.translate_github_to_tnos_context` (lines 1159-1212).
The function overwrites every constructor default except `when`.  The local
`repo_info` string is computed by the source but never used (`context.where` is
assigned a literal path), so it does not appear here.  The `in params`
containment tests are key-membership tests: the bridge validates `parameters`
to be a dict before this function runs. -/
def translateGithubToTnosContext (currentVersion : String) (nowIso : String)
    (githubRequest : JObj) : MCPContext :=
  let toolName := githubRequest.getD "name" (.str "")
  let params := githubRequest.getD "parameters" (.obj .nil)
  let ctx := MCPContext.init nowIso
  let what : JVal :=
    match toolName with
    | .str s => match alistGet toolMapping s with
      | some c => .str c
      | none => .str "unknown_operation"
    | _ => .str "unknown_operation"
  let hasListParam : Bool :=
    match params with
    | .obj ps => ps.hasKey "perPage" || ps.hasKey "page" || ps.hasKey "list"
    | _ => false
  { ctx with
     who := .str "GitHub Copilot",
     what := what,
     whereD := .str "/Users/Jubicudis/TNOS1/Tranquility-Neuro-OS/mcp",
     why := .str ("GitHub operation: " ++ pyStr toolName),
     how := .str "github_mcp_bridge",
     extent := .str (if hasListParam then "multiple_resources" else "single_resource"),
     metadata := JObj.ofList
       [("original_github_request", .str (JVal.obj githubRequest).dumps),
        ("github_tool", toolName),
        ("mcp_version", .str currentVersion)] }

/-- `GitHubTNOSBridge.translate_tnos_to_github_response` (lines 1214-1257).
The `original_request` argument is accepted and ignored, exactly as in the
source body. -/
def translateTnosToGithubResponse (currentVersion : String)
    (tnosResponse : MCPMessage) (originalRequest : JObj) : JVal :=
  let resultContent : JVal :=
    match tnosResponse.content with
    | .str s =>
      (match jsonLoads s with
       | some v => v
       | none => .obj (.cons "content" (.str s) .nil))
    | v => v
  .obj (JObj.ofList
    [("result", resultContent),
     ("metadata", .obj (JObj.ofList
       [("tnos_context", .obj (JObj.ofList
         [("who", tnosResponse.context.who),
          ("what", tnosResponse.context.what),
          ("when", tnosResponse.context.whenD),
          ("where", tnosResponse.context.whereD),
          ("why", tnosResponse.context.why),
          ("how", tnosResponse.context.how),
          ("extent", tnosResponse.context.extent)])),
        ("mcp_version", .str currentVersion)]))])

/-! ### The request loop of `handle_github_request` (github_mcp_bridge.py 1393-1565)

One iteration of `async for message in websocket`, for a frame that parsed as
JSON into a dict.  The network and environment enter as oracles:
`validator` is the outcome of `validate_github_request` (whose regex-based
threat scanner is not embedded; every claim about this pipeline concerns
requests that pass validation), `send` is the outcome of
`self.tnos_ws_connection.send`, and `recv` the outcome of the
`asyncio.wait_for(..., timeout=30.0)` receive. -/

/-- The receive timeout passed to `asyncio.wait_for` at line 1515. -/
def tnosResponseTimeoutSeconds : ℤ := 30

inductive SendOutcome where
  | sent : SendOutcome
  | closedThenReconnected : SendOutcome
  | closedReconnectFailed : String → SendOutcome
deriving DecidableEq

inductive RecvOutcome where
  | response : MCPMessage → RecvOutcome
  | timeout : RecvOutcome
  | recvError : String → RecvOutcome
deriving DecidableEq

structure StepResult where
  sent : List JVal
  forwarded : Option MCPMessage
  rateState : RateState
deriving DecidableEq

/-- The tool name the loop body reads from the request (line 1422):
`github_request.get("name", "")`, coerced to `""` when not a string. -/
def requestToolName (githubRequest : JObj) : String :=
  match githubRequest.getD "name" (.str "") with
  | .str s => s
  | _ => ""

/-- Whether the send phase reaches the TNOS socket: only a close followed by a
failed reconnect (lines 1486-1508) aborts the iteration before a frame is
written. -/
def SendOutcome.delivers : SendOutcome → Bool
  | .closedReconnectFailed _ => false
  | _ => true

/-- `"suggestions"` payload of the unsupported-tool rejection (lines 1436-1443):
the GitHub tool names known to the mapping, followed by the *tool-definition
dicts* (not their names) from configuration whose name starts with `tnos_`. -/
def toolSuggestions (toolDefs : JArr) : JArr :=
  JArr.ofList ((toolMapping.map (fun p => JVal.str p.1)) ++
    (toolDefs.toList.filter (fun t =>
      match t with
      | .obj o => pyStartsWith (match o.getD "name" (.str "") with
          | .str s => s
          | _ => "") "tnos_"
      | _ => false)))

/-- The receive phase of the loop body (lines 1510-1565): the
`asyncio.wait_for(..., timeout=30.0)` outcome decides which frame the GitHub
client receives. -/
def processTnosReply (currentVersion : String) (tnosContext : MCPContext)
    (tnosMessage : MCPMessage) (rs₁ : RateState) (recv : RecvOutcome)
    (githubRequest : JObj) : StepResult :=
  match recv with
  | .timeout =>
    { sent := [.obj (JObj.ofList
        [("error", .str ("Timeout waiting for response from TNOS MCP server for operation: "
            ++ pyStr tnosContext.what)),
         ("status", .str "error"),
         ("errorType", .str "timeout"), ("recoverable", .bool true)])],
      forwarded := some tnosMessage, rateState := rs₁ }
  | .recvError e =>
    { sent := [.obj (JObj.ofList
        [("error", .str ("Error receiving response from TNOS MCP server: " ++ e)),
         ("status", .str "error"),
         ("errorType", .str "communication_failure"), ("recoverable", .bool false)])],
      forwarded := some tnosMessage, rateState := rs₁ }
  | .response tnosResponse =>
    { sent := [translateTnosToGithubResponse currentVersion tnosResponse githubRequest],
      forwarded := some tnosMessage, rateState := rs₁ }

def processGithubMessage (currentVersion nowIso : String) (toolDefs : JArr)
    (validator : Bool × String) (rs : RateState) (now : QNum)
    (newMsgId : String) (msgNow : QNum)
    (send : SendOutcome) (recv : RecvOutcome) (githubRequest : JObj) : StepResult :=
  if !validator.1 then
    { sent := [.obj (JObj.ofList
        [("error", .str validator.2), ("status", .str "error"),
         ("errorType", .str "validation_failure"), ("recoverable", .bool true)])],
      forwarded := none, rateState := rs }
  else
    let toolNameV := githubRequest.getD "name" (.str "")
    let toolName : String := match toolNameV with
      | .str s => s
      | _ => ""
    if !(pyStartsWith toolName "tnos_") && (alistGet toolMapping toolName).isNone then
      { sent := [.obj (JObj.ofList
          [("error", .str ("Unsupported tool: " ++ toolName)), ("status", .str "error"),
           ("errorType", .str "unsupported_tool"), ("recoverable", .bool true),
           ("suggestions", .arr (toolSuggestions toolDefs))])],
        forwarded := none, rateState := rs }
    else
      let (allowed, rs₁) := checkRateLimit now rs toolName
      if !allowed then
        let (quota, rs₂) := getRemainingQuota now rs₁ toolName
        { sent := [.obj (JObj.ofList
            [("error", .str ("Rate limit exceeded for tool: " ++ toolName)),
             ("status", .str "error"),
             ("errorType", .str "rate_limit_exceeded"), ("recoverable", .bool true),
             ("remaining_quota", .obj quota)])],
          forwarded := none, rateState := rs₂ }
      else
        let tnosContext := translateGithubToTnosContext currentVersion nowIso githubRequest
        let tnosMessage : MCPMessage :=
          ⟨newMsgId, "request", githubRequest.getD "parameters" (.obj .nil), msgNow, tnosContext⟩
        match send with
        | .closedReconnectFailed lastError =>
          { sent := [.obj (JObj.ofList
              [("error", .str ("Failed to reconnect to TNOS MCP server: " ++ lastError)),
               ("status", .str "error"),
               ("errorType", .str "connection_failure"), ("recoverable", .bool false)])],
            forwarded := none, rateState := rs₁ }
        | .sent => processTnosReply currentVersion tnosContext tnosMessage rs₁ recv githubRequest
        | .closedThenReconnected =>
          processTnosReply currentVersion tnosContext tnosMessage rs₁ recv githubRequest

/-! ### `MobiusCompression` (mobius_compression.py)

The numeric side of the Möbius formula (`math.exp`, `math.log2`, `math.log`)
is floating-point and has no exact kernel-evaluable embedding; the float-valued
quantities that `compress` computes are therefore supplied by an opaque oracle,
quantified over in every theorem.  The *data path* — what ends up in the
`"data"` field of the package and how `decompress` recovers it — is embedded
exactly; no claim depends on the numeric values. -/

/-- Python truthiness, for `params.get("useTimeFactor", True)` used as a
condition. -/
def pyTruthy : JVal → Bool
  | .null => false
  | .bool b => b
  | .num q => !(q.num = 0)
  | .str s => !s.isEmpty
  | .arr .nil => false
  | .arr _ => true
  | .obj .nil => false
  | .obj _ => true

/-- Occurrence of `needle` in `hay` (Python `in` on strings). -/
def containsSub (hay needle : List Char) : Bool :=
  match hay with
  | [] => needle.isEmpty
  | _ :: tl => startsWithCL hay needle || containsSub tl needle

def pyInStr (needle hay : String) : Bool := containsSub hay.toList needle.toList

/-- `s.strip().startswith(("\x7b", "["))`. -/
def looksJson (s : String) : Bool :=
  match skipWs s.toList with
  | c :: _ => c = '[' || c = lbrace.toList.head!
  | [] => false

/-- `if original_data.strip().startswith(("\x7b","[")): try json.loads` —
the re-parsing step both branches of `decompress` apply to a string payload. -/
def reparseIfJson : JVal → JVal
  | .str s =>
    if looksJson s then
      (match jsonLoads s with
       | some p => p
       | none => .str s)
    else .str s
  | v => v

/-- The float results of `extract_context_factors` (keys `B V I G F E t C_sum`),
the `E`/`t` values after the `useEnergyFactor` / `useTimeFactor` overrides, and
the quantities `entropy`, `value`, `alignment`, `compressed` computed by the
Möbius formula (mobius_compression.py 69-99). -/
structure MobiusNums where
  B : QNum
  V : QNum
  I : QNum
  G : QNum
  F : QNum
  E : QNum
  t : QNum
  C_sum : QNum
  usedE : QNum
  usedT : QNum
  entropy : QNum
  value : QNum
  alignment : QNum
  compressed : QNum
deriving DecidableEq

/-- The serialized form `compress` works on: the input itself when it is a
string, its `json.dumps` otherwise (lines 63-67). -/
def mobiusDataStr (data : JVal) : String :=
  match data with
  | .str s => s
  | d => d.dumps

/-- The compressed package built at lines 102-110 of `compress`; its `"data"`
entry carries the original serialized data verbatim. -/
def mobiusPackage (n : MobiusNums) (dataStr : String) : JObj :=
  JObj.ofList
    [("algorithm", .str "mobius7d"), ("version", .str "1.0"),
     ("compressed", .num n.compressed), ("value", .num n.value),
     ("entropy", .num n.entropy),
     ("compressionFactors", .obj (JObj.ofList
       [("B", .num n.B), ("V", .num n.V), ("I", .num n.I), ("G", .num n.G),
        ("F", .num n.F), ("E", .num n.E), ("t", .num n.t), ("C_sum", .num n.C_sum)])),
     ("data", .str dataStr)]

/-- `MobiusCompression.compress` (lines 54-165).  `oracle` supplies the float
quantities (as a function of the serialized data, the context, and the two
truthiness flags); `nowMs` is `int(time.time() * 1000)`.  When
`params.get("context", \x7b\x7d)` is not a dict, `extract_context_factors`
raises `AttributeError` at `context.get("who")` (line 351), the `except`
clause (lines 156-163) catches it, and the result is the `success = False`
dictionary carrying the exception text and `json.dumps(data)`; otherwise the
`try` body cannot raise — `json.dumps` succeeds on every `JVal` — and the
result carries `success = True`, with the sizes, ratio, package, and metadata
exactly as constructed by the source. -/
def MobiusCompression.compress (oracle : String → JVal → Bool → Bool → MobiusNums)
    (nowMs : ℤ) (data : JVal) (params : JObj) : JObj :=
  let context := params.getD "context" (.obj .nil)
  let useTimeV := params.getD "useTimeFactor" (.bool true)
  let useEnergyV := params.getD "useEnergyFactor" (.bool true)
  let dataStr := mobiusDataStr data
  let originalSize : ℤ := dataStr.length
  let n := oracle dataStr context (pyTruthy useTimeV) (pyTruthy useEnergyV)
  let compressedJson := (JVal.obj (mobiusPackage n dataStr)).dumps
  let compressedSize : ℤ := compressedJson.length
  let ratio : QNum :=
    if 0 < originalSize then
      QNum.sub (QNum.int 1) (QNum.div (QNum.int compressedSize) (QNum.int originalSize))
    else QNum.int 0
  if !context.isObj then
    JObj.ofList
      [("success", .bool false),
       ("error", .str ("Möbius compression failed: '" ++ pyTypeName context
           ++ "' object has no attribute 'get'")),
       ("data", .str data.dumps),
       ("timestamp", .int nowMs)]
  else
  JObj.ofList
    [("success", .bool true),
     ("originalSize", .int originalSize),
     ("compressedSize", .int compressedSize),
     ("compressionRatio", .num ratio),
     ("data", .str compressedJson),
     ("metadata", .obj (JObj.ofList
       [("algorithm", .str "mobius7d"), ("version", .str "1.0"),
        ("B", .num n.B), ("V", .num n.V), ("I", .num n.I), ("G", .num n.G),
        ("F", .num n.F), ("E", .num n.usedE), ("t", .num n.usedT),
        ("C_sum", .num n.C_sum), ("entropy", .num n.entropy),
        ("value", .num n.value), ("alignment", .num n.alignment),
        ("useTimeFactor", useTimeV), ("useEnergyFactor", useEnergyV)])),
     ("contextVector", context),
     ("timestamp", .int nowMs)]

/-- `MobiusCompression.decompress` (lines 167-281).  `invOracle` supplies the
float pair (reconstructed value, fidelity) of the placeholder inverse-formula
branch, which is reachable only for packages without a `"data"` entry —
`compress` always embeds one.  A raised exception (non-string `"data"`, a
payload that fails `json.loads`, or a non-container decoded value) yields the
`success = False` dictionary of the `except` clause; its error text is
abbreviated to the exception kind. -/
def MobiusCompression.decompress (invOracle : JObj → QNum × QNum) (nowMs : ℤ)
    (compressedData : JObj) : JObj :=
  let errorResult : String → JObj := fun e =>
    JObj.ofList
      [("success", .bool false),
       ("error", .str ("Möbius decompression failed: " ++ e)),
       ("timestamp", .int nowMs)]
  let metadata := compressedData.getD "metadata" (.obj .nil)
  let okResult : JVal → JObj := fun d =>
    JObj.ofList
      [("success", .bool true), ("data", d), ("metadata", metadata),
       ("timestamp", .int nowMs)]
  match compressedData.getD "data" (.str "") with
  | .str s =>
    (match jsonLoads s with
     | none => errorResult "JSONDecodeError"
     | some decoded =>
       let isMobius : Option Bool :=
         match decoded with
         | .obj o => some (o.hasKey "algorithm" && o.getD "algorithm" .null = .str "mobius7d")
         | .arr items =>
           if items.toList.contains (.str "algorithm") then none else some false
         | .str s' => if pyInStr "algorithm" s' then none else some false
         | _ => none
       match isMobius with
       | none => errorResult "TypeError"
       | some false =>
         (match decoded with
          | .obj o =>
            (match o.get "data" with
             | some od => okResult (reparseIfJson od)
             | none => okResult decoded)
          | d => okResult d)
       | some true =>
         (match decoded with
          | .obj o =>
            (match o.get "data" with
             | some od => okResult (reparseIfJson od)
             | none =>
               let (rv, fid) := invOracle o
               okResult (.obj (JObj.ofList
                 [("decompressedFrom", .str "möbius"),
                  ("reconstructedValue", .num rv),
                  ("originalValue", o.getD "value" (.int 0)),
                  ("fidelity", .num fid),
                  ("note", .str "This is a partial implementation that doesn't fully reconstruct the data")])))
          | _ => errorResult "TypeError"))
  | _ => errorResult "TypeError"

/-! ### Dictionary algebra used by the signature proofs -/

theorem JObj.get_set_self : ∀ (o : JObj) (k : String) (v : JVal), (o.set k v).get k = some v
  | .nil, k, v => by simp [JObj.set, JObj.get]
  | .cons k' v' tl, k, v => by
    by_cases h : k' = k
    · simp [JObj.set, JObj.get, h]
    · simp [JObj.set, JObj.get, h, JObj.get_set_self tl k v]

theorem JObj.get_set_ne : ∀ (o : JObj) (k k' : String) (v : JVal), k ≠ k' →
    (o.set k v).get k' = o.get k'
  | .nil, k, k', v, h => by
    simp only [JObj.set, JObj.get]
    exact if_neg h
  | .cons k₀ v₀ tl, k, k', v, h => by
    by_cases h₀ : k₀ = k
    · subst h₀
      simp only [JObj.set, if_pos rfl, JObj.get, if_neg h]
    · simp only [JObj.set, if_neg h₀, JObj.get, JObj.get_set_ne tl k k' v h]

theorem JObj.hasKey_set_self : ∀ (o : JObj) (k : String) (v : JVal),
    (o.set k v).hasKey k = true
  | .nil, k, v => by simp [JObj.set, JObj.hasKey]
  | .cons k' v' tl, k, v => by
    by_cases h : k' = k
    · simp [JObj.set, JObj.hasKey, h]
    · simp [JObj.set, JObj.hasKey, h, JObj.hasKey_set_self tl k v]

theorem JObj.hasKey_set_ne : ∀ (o : JObj) (k k' : String) (v : JVal), k ≠ k' →
    (o.set k v).hasKey k' = o.hasKey k'
  | .nil, k, k', v, h => by simp [JObj.set, JObj.hasKey, h]
  | .cons k₀ v₀ tl, k, k', v, h => by
    by_cases h₀ : k₀ = k
    · subst h₀
      simp only [JObj.set, if_pos rfl, JObj.hasKey]
    · simp only [JObj.set, if_neg h₀, JObj.hasKey, JObj.hasKey_set_ne tl k k' v h]

theorem JObj.set_set_same : ∀ (o : JObj) (k : String) (v w : JVal),
    (o.set k v).set k w = o.set k w
  | .nil, k, v, w => by simp [JObj.set]
  | .cons k' v' tl, k, v, w => by
    by_cases h : k' = k
    · simp [JObj.set, h]
    · simp [JObj.set, h, JObj.set_set_same tl k v w]

theorem JObj.hasKey_of_get : ∀ (o : JObj) (k : String) (v : JVal),
    o.get k = some v → o.hasKey k = true
  | .nil, _, _, h => by simp [JObj.get] at h
  | .cons k' v' tl, k, v, h => by
    by_cases h₀ : k' = k
    · simp [JObj.hasKey, h₀]
    · simp only [JObj.get, if_neg h₀] at h
      simp [JObj.hasKey, h₀, JObj.hasKey_of_get tl k v h]

/-! ### Concrete instances used by witnesses and counterexamples -/

/-- A concrete stand-in for the keyed `HMAC-SHA256(key, ·).hexdigest()` map:
the identity.  Every counterexample below only needs the signing function to
distinguish two explicitly different canonical serializations — which any
collision-free digest does. -/
def idFun : String → String := fun s => s

/-- The frame with the `signature` entry of its `meta` dict removed — the value
`verify_message` serializes before comparing digests (lines 496-501). -/
def stripSignature (m : JVal) : JVal :=
  match m with
  | .obj fields =>
    (match fields.getD "meta" (.obj .nil) with
     | .obj mfs => .obj (fields.set "meta" (.obj (mfs.erase "signature")))
     | _ => m)
  | _ => m

/-- A well-formed external request as the bridge receives it. -/
def reqFC : JObj :=
  JObj.ofList
    [("name", .str "get_file_contents"), ("id", .str "req-1"),
     ("parameters", .obj .nil)]

/-- A well-formed `get_file_contents` request carrying a `meta.message_id`
that has already been recorded by the validator (id `"a"`, the id of the
accepted frame of the C3 trace). -/
def c3ReplayedReq : JObj :=
  JObj.ofList
    [("name", .str "get_file_contents"),
     ("parameters", .obj .nil),
     ("meta", .obj (.cons "message_id" (.str "a") .nil))]

/-- A request carrying a `userContext` with both `identity` and `user`. -/
def c2Request : JObj :=
  JObj.ofList
    [("name", .str "get_file_contents"), ("id", .str "req-1"),
     ("parameters", .obj .nil),
     ("userContext", .obj (JObj.ofList
       [("identity", .str "Alice"), ("user", .str "Bob")]))]

/-- The two-translator composition the round-trip claim describes: the internal
message is the one `handle_github_request` builds at lines 1472-1476
(`MCPMessage(message_type="request", context=translated, content=parameters)`),
and it is fed straight back through `translate_tnos_to_github_response`. -/
def roundTrip (currentVersion nowIso msgId : String) (ts : QNum) (x : JObj) : JVal :=
  translateTnosToGithubResponse currentVersion
    ⟨msgId, "request", x.getD "parameters" (.obj .nil), ts,
     translateGithubToTnosContext currentVersion nowIso x⟩ x

/-- A message whose `meta` already contains a `signature` entry. -/
def c4Message : JVal :=
  .obj (JObj.ofList
    [("kind", .str "request"),
     ("meta", .obj (JObj.ofList [("signature", .str "old")]))])

/-- The signed frame of the C3 trace: `sign_message` applied to the empty dict
with message id `"a"` at time `0`. -/
def c3FrameA : JVal :=
  match signMessage idFun "a" (QNum.int 0) (.obj .nil) with
  | .ok v => v
  | .exn _ => .null

/-- The `k`-th filler id: `k` repetitions of `b` (distinct lengths make the
1000 ids pairwise distinct and distinct from `"a"`). -/
def c3FillerId (k : Nat) : String := String.mk (List.replicate k 'b')

/-- A structurally valid, fresh frame with id `c3FillerId k` and a signature
that matches no serialization (`"bad"` is not a JSON object rendering). -/
def c3Filler (k : Nat) : JVal :=
  .obj (.cons "meta" (.obj (.cons "message_id" (.str (c3FillerId k))
    (.cons "timestamp" (JVal.int 0) (.cons "signature" (.str "bad") .nil)))) .nil)

/-- One validator step of the C3 trace: feed the next filler frame, carry the
replay-table state, and record whether every filler so far was rejected with
`Invalid signature`. -/
def c3Step (acc : List JVal × Bool) (k : Nat) : List JVal × Bool :=
  let r := verifyMessage idFun (QNum.int 0) acc.1 (c3Filler k)
  (r.messageIds, acc.2 && decide (r.out = .ret false "Invalid signature"))

/-- Run the validator over frame A followed by the 1000 fillers. -/
def c3Run : List JVal × Bool :=
  (List.range 1000).foldl c3Step
    ((verifyMessage idFun (QNum.int 0) [] c3FrameA).messageIds, true)

/-- A TNOS response message used to exercise the response branch. -/
def sampleTnosResponse : MCPMessage :=
  ⟨"resp-1", "response", .obj (.cons "ok" (.bool true) .nil), QNum.int 0,
   MCPContext.init "t0"⟩

/-- An oracle instance for the Möbius float quantities (all zero; the data path
under verification is independent of these values). -/
def c10Zeros : MobiusNums :=
  ⟨QNum.int 0, QNum.int 0, QNum.int 0, QNum.int 0, QNum.int 0, QNum.int 0, QNum.int 0,
   QNum.int 0, QNum.int 0, QNum.int 0, QNum.int 0, QNum.int 0, QNum.int 0, QNum.int 0⟩

/-- The compressed package `compress` embeds for a given oracle, input and
parameter dict (the value whose `json.dumps` round trip the C10 theorem takes
as a hypothesis). -/
def mobiusPackageOf (oracle : String → JVal → Bool → Bool → MobiusNums)
    (data : JVal) (params : JObj) : JObj :=
  mobiusPackage
    (oracle (mobiusDataStr data) (params.getD "context" (.obj .nil))
      (pyTruthy (params.getD "useTimeFactor" (.bool true)))
      (pyTruthy (params.getD "useEnergyFactor" (.bool true))))
    (mobiusDataStr data)

/-! ### Validator lemmas: the behavior of `sign_message` / `verify_message` -/

theorem QNum.blt300_sub_self (now : QNum) :
    QNum.blt (QNum.int 300) (now.sub now) = false := by
  simp only [QNum.blt, QNum.sub, QNum.int, decide_eq_false_iff_not, not_lt]
  nlinarith [mul_self_nonneg now.den]

theorem verify_accepts_general (hmac : String → String) (now : QNum) (state : List JVal)
    (fields mfs : JObj) (i : JVal) (ts : QNum) (sig : String)
    (hmk : fields.hasKey "meta" = true)
    (hmeta : fields.getD "meta" (.obj .nil) = .obj mfs)
    (hid : mfs.get "message_id" = some i)
    (hts : mfs.get "timestamp" = some (.num ts))
    (hsg : mfs.get "signature" = some (.str sig))
    (hfresh : QNum.blt (QNum.int 300) (now.sub ts) = false)
    (hnew : i ∉ state)
    (hgood : sig = hmac (canonDumps (.obj (fields.set "meta" (.obj (mfs.erase "signature")))))) :
    verifyMessage hmac now state (.obj fields) =
      ⟨.ret true "Message verified", dequeAppend 1000 state i⟩ := by
  have hmid : mfs.hasKey "message_id" = true := JObj.hasKey_of_get _ _ _ hid
  have htsk : mfs.hasKey "timestamp" = true := JObj.hasKey_of_get _ _ _ hts
  have hsgk : mfs.hasKey "signature" = true := JObj.hasKey_of_get _ _ _ hsg
  have h6 : mfs.getD "timestamp" .null = .num ts := by rw [JObj.getD, hts]; rfl
  have h8 : mfs.getD "message_id" .null = i := by rw [JObj.getD, hid]; rfl
  have h10 : mfs.getD "signature" .null = .str sig := by rw [JObj.getD, hsg]; rfl
  simp only [verifyMessage, hmk, hmeta, hmid, htsk, hsgk, h6, h8, h10, hfresh, hgood, hnew,
    Bool.not_true, Bool.not_false, if_false, if_true, ite_true, ite_false]
  simp [hnew]

theorem verify_invalid_signature (hmac : String → String) (now : QNum) (state : List JVal)
    (fields mfs : JObj) (i : JVal) (ts : QNum) (sig : String)
    (hmk : fields.hasKey "meta" = true)
    (hmeta : fields.getD "meta" (.obj .nil) = .obj mfs)
    (hid : mfs.get "message_id" = some i)
    (hts : mfs.get "timestamp" = some (.num ts))
    (hsg : mfs.get "signature" = some (.str sig))
    (hfresh : QNum.blt (QNum.int 300) (now.sub ts) = false)
    (hnew : i ∉ state)
    (hbad : sig ≠ hmac (canonDumps (.obj (fields.set "meta" (.obj (mfs.erase "signature")))))) :
    verifyMessage hmac now state (.obj fields) =
      ⟨.ret false "Invalid signature", dequeAppend 1000 state i⟩ := by
  have hmid : mfs.hasKey "message_id" = true := JObj.hasKey_of_get _ _ _ hid
  have htsk : mfs.hasKey "timestamp" = true := JObj.hasKey_of_get _ _ _ hts
  have hsgk : mfs.hasKey "signature" = true := JObj.hasKey_of_get _ _ _ hsg
  have h6 : mfs.getD "timestamp" .null = .num ts := by rw [JObj.getD, hts]; rfl
  have h8 : mfs.getD "message_id" .null = i := by rw [JObj.getD, hid]; rfl
  have h10 : mfs.getD "signature" .null = .str sig := by rw [JObj.getD, hsg]; rfl
  simp only [verifyMessage, hmk, hmeta, hmid, htsk, hsgk, h6, h8, h10, hfresh,
    Bool.not_true, Bool.not_false, if_false, if_true, ite_true, ite_false]
  simp [hnew, hbad]

theorem verify_replay_detected (hmac : String → String) (now : QNum) (state : List JVal)
    (fields mfs : JObj) (i : JVal) (ts : QNum)
    (hmk : fields.hasKey "meta" = true)
    (hmeta : fields.getD "meta" (.obj .nil) = .obj mfs)
    (hid : mfs.get "message_id" = some i)
    (hts : mfs.get "timestamp" = some (.num ts))
    (hsgk : mfs.hasKey "signature" = true)
    (hfresh : QNum.blt (QNum.int 300) (now.sub ts) = false)
    (hmem : i ∈ state) :
    verifyMessage hmac now state (.obj fields) =
      ⟨.ret false "Message replay detected", state⟩ := by
  have hmid : mfs.hasKey "message_id" = true := JObj.hasKey_of_get _ _ _ hid
  have htsk : mfs.hasKey "timestamp" = true := JObj.hasKey_of_get _ _ _ hts
  have h6 : mfs.getD "timestamp" .null = .num ts := by rw [JObj.getD, hts]; rfl
  have h8 : mfs.getD "message_id" .null = i := by rw [JObj.getD, hid]; rfl
  simp only [verifyMessage, hmk, hmeta, hmid, htsk, hsgk, h6, h8, hfresh,
    Bool.not_true, Bool.not_false, if_false, if_true, ite_true, ite_false]
  simp [hmem]

theorem signMessage_eq (hmac : String → String) (newId : String) (now : QNum)
    (fields mfs : JObj) (hmeta : fields.getD "meta" (.obj .nil) = .obj mfs) :
    signMessage hmac newId now (.obj fields) =
      .ok (.obj ((fields.set "meta"
          (.obj ((mfs.set "message_id" (.str newId)).set "timestamp" (.num now)))).set "meta"
        (.obj (((mfs.set "message_id" (.str newId)).set "timestamp" (.num now)).set "signature"
          (.str (hmac (canonDumps (.obj (fields.set "meta"
            (.obj ((mfs.set "message_id" (.str newId)).set "timestamp" (.num now)))))))))))) := by
  simp only [signMessage, hmeta]

theorem signed_frame_verifies (hmac : String → String) (newId : String) (now : QNum)
    (state : List JVal) (fields mfs : JObj)
    (hnosig : mfs.hasKey "signature" = false)
    (hstate : (JVal.str newId) ∉ state) :
    verifyMessage hmac now state
      (.obj ((fields.set "meta"
          (.obj ((mfs.set "message_id" (.str newId)).set "timestamp" (.num now)))).set "meta"
        (.obj (((mfs.set "message_id" (.str newId)).set "timestamp" (.num now)).set "signature"
          (.str (hmac (canonDumps (.obj (fields.set "meta"
            (.obj ((mfs.set "message_id" (.str newId)).set "timestamp" (.num now)))))))))))) =
      ⟨.ret true "Message verified", dequeAppend 1000 state (.str newId)⟩ := by
  have hm1sig : ((mfs.set "message_id" (.str newId)).set "timestamp" (.num now)).hasKey
      "signature" = false := by
    rw [JObj.hasKey_set_ne _ _ _ _ (by decide), JObj.hasKey_set_ne _ _ _ _ (by decide), hnosig]
  apply verify_accepts_general hmac now state _ _ _ now _
  · exact JObj.hasKey_set_self _ _ _
  · rw [JObj.getD, JObj.get_set_self]; rfl
  · rw [JObj.get_set_ne _ _ _ _ (by decide), JObj.get_set_ne _ _ _ _ (by decide),
      JObj.get_set_self]
  · rw [JObj.get_set_ne _ _ _ _ (by decide), JObj.get_set_self]
  · exact JObj.get_set_self _ _ _
  · exact QNum.blt300_sub_self now
  · exact hstate
  · rw [JObj.erase_set_of_not_hasKey _ _ _ hm1sig, JObj.set_set_same, JObj.set_set_same]

theorem canonDumps_obj_ne_bad (o : JObj) : canonDumps (.obj o) ≠ "bad" := by
  simp only [canonDumps, JVal.sortKeysDeep, JVal.dumps]
  intro h
  have h2 := congrArg String.data h
  simp only [String.data_append, lbrace, rbrace] at h2
  simp at h2

theorem c3FillerId_inj : Function.Injective c3FillerId := by
  intro a b h
  have h2 : List.replicate a 'b' = List.replicate b 'b' := congrArg String.data h
  simpa using congrArg List.length h2

theorem c3FillerId_ne_a (k : Nat) : c3FillerId k ≠ "a" := by
  cases k with
  | zero => decide
  | succ n =>
    intro h
    have h2 : List.replicate (n + 1) 'b' = "a".data := congrArg String.data h
    rw [List.replicate_succ] at h2
    have h3 := congrArg List.head? h2
    simp at h3

theorem c3Filler_step (st : List JVal) (k : Nat)
    (h : (JVal.str (c3FillerId k)) ∉ st) :
    verifyMessage idFun (QNum.int 0) st (c3Filler k) =
      ⟨.ret false "Invalid signature", dequeAppend 1000 st (.str (c3FillerId k))⟩ := by
  apply verify_invalid_signature idFun (QNum.int 0) st _ _ _ (QNum.int 0) "bad"
  · rfl
  · rfl
  · rfl
  · rfl
  · rfl
  · decide
  · exact h
  · exact fun hb => canonDumps_obj_ne_bad _ hb.symm

theorem c3_fold_phase (ks : List Nat) :
    ∀ (st : List JVal) (b : Bool),
      st.length + ks.length ≤ 1000 →
      (∀ k ∈ ks, (JVal.str (c3FillerId k)) ∉ st) →
      List.Pairwise (fun a b => c3FillerId a ≠ c3FillerId b) ks →
      ks.foldl c3Step (st, b) = (st ++ ks.map (fun k => JVal.str (c3FillerId k)), b) := by
  induction ks with
  | nil => intro st b _ _ _; simp
  | cons k ks ih =>
    intro st b hlen hmem hpw
    have hda : dequeAppend 1000 st (.str (c3FillerId k)) = st ++ [.str (c3FillerId k)] := by
      unfold dequeAppend
      rw [if_neg]
      simp only [List.length_append, List.length_cons, List.length_nil, not_lt]
      simp only [List.length_cons] at hlen
      omega
    have hmem' : ∀ k' ∈ ks, (JVal.str (c3FillerId k')) ∉ st ++ [.str (c3FillerId k)] := by
      intro k' hk'
      simp only [List.mem_append, List.mem_singleton, not_or]
      refine ⟨hmem k' (List.mem_cons_of_mem _ hk'), ?_⟩
      intro he
      have h4 : c3FillerId k' = c3FillerId k := by simpa using he
      exact ((List.pairwise_cons.mp hpw).1 k' hk') h4.symm
    have hlen' : (st ++ [JVal.str (c3FillerId k)]).length + ks.length ≤ 1000 := by
      simp only [List.length_append, List.length_cons, List.length_nil] at hlen ⊢
      omega
    have hstep : c3Step (st, b) k = (st ++ [JVal.str (c3FillerId k)], b) := by
      unfold c3Step
      rw [c3Filler_step st k (hmem k (List.mem_cons_self k ks))]
      simp [hda]
    rw [List.foldl_cons, hstep, ih _ b hlen' hmem' (List.pairwise_cons.mp hpw).2]
    simp

theorem c3FrameA_eq :
    c3FrameA = .obj ((JObj.nil.set "meta"
        (.obj ((JObj.nil.set "message_id" (.str "a")).set "timestamp" (.num (QNum.int 0))))).set "meta"
      (.obj (((JObj.nil.set "message_id" (.str "a")).set "timestamp" (.num (QNum.int 0))).set "signature"
        (.str (idFun (canonDumps (.obj (JObj.nil.set "meta"
          (.obj ((JObj.nil.set "message_id" (.str "a")).set "timestamp" (.num (QNum.int 0)))))))))))) := by
  unfold c3FrameA
  rw [signMessage_eq idFun "a" (QNum.int 0) .nil .nil rfl]

theorem c3Run_eq :
    c3Run = ((List.range 1000).map (fun k => JVal.str (c3FillerId k)), true) := by
  have hinit : (verifyMessage idFun (QNum.int 0) [] c3FrameA).messageIds = [JVal.str "a"] := by
    rw [c3FrameA_eq, signed_frame_verifies idFun "a" (QNum.int 0) [] .nil .nil rfl (by simp)]
    rfl
  unfold c3Run
  rw [hinit]
  rw [show (1000 : Nat) = 999 + 1 from rfl, List.range_succ, List.foldl_append]
  have hpw : List.Pairwise (fun a b => c3FillerId a ≠ c3FillerId b) (List.range 999) :=
    (List.nodup_range 999).imp (fun hab hc => hab (c3FillerId_inj hc))
  have hmem : ∀ k ∈ List.range 999, (JVal.str (c3FillerId k)) ∉ [JVal.str "a"] := by
    intro k _
    simp only [List.mem_singleton]
    intro he
    exact c3FillerId_ne_a k (by simpa using he)
  rw [c3_fold_phase (List.range 999) [JVal.str "a"] true (by simp) hmem hpw]
  have hnm : (JVal.str (c3FillerId 999)) ∉
      [JVal.str "a"] ++ (List.range 999).map (fun k => JVal.str (c3FillerId k)) := by
    intro hm
    rcases List.mem_append.mp hm with h | h
    · exact c3FillerId_ne_a 999 (by simpa using List.mem_singleton.mp h)
    · rcases List.mem_map.mp h with ⟨k, hk, he⟩
      have h5 : c3FillerId k = c3FillerId 999 := by simpa using he
      have h6 := c3FillerId_inj h5
      simp only [List.mem_range] at hk
      omega
  simp only [List.foldl_cons, List.foldl_nil]
  have hstep : c3Step
      ([JVal.str "a"] ++ (List.range 999).map (fun k => JVal.str (c3FillerId k)), true) 999 =
      ((List.range 999).map (fun k => JVal.str (c3FillerId k)) ++ [JVal.str (c3FillerId 999)],
        true) := by
    unfold c3Step
    rw [c3Filler_step _ 999 hnm]
    have hda : dequeAppend 1000
        (JVal.str "a" :: (List.range 999).map (fun k => JVal.str (c3FillerId k)))
        (.str (c3FillerId 999)) =
        (List.range 999).map (fun k => JVal.str (c3FillerId k)) ++ [JVal.str (c3FillerId 999)] := by
      unfold dequeAppend
      have h1 : ((JVal.str "a" :: (List.range 999).map (fun k => JVal.str (c3FillerId k))) ++
          [JVal.str (c3FillerId 999)]).length = 1001 := by simp
      rw [if_pos (by rw [h1]; norm_num), h1]
      norm_num [List.cons_append]
    simp [hda]
  rw [hstep]
  simp


/-! ### Claims -/

/-- **C2, amended.**  The claim takes `who` from `userContext.identity` ??
`userContext.user` ?? `"System"`, as §4.3 of the spec prescribes; the code
(github_mcp_bridge.py line 1179) assigns the literal `"GitHub Copilot"`
unconditionally and never reads `userContext`.  Amended claim: for every
external request, the `who` dimension of the internal context produced by
to-internal translation is the string `"GitHub Copilot"`. -/
theorem C2_who_always_github_copilot (currentVersion nowIso : String)
    (githubRequest : JObj) :
    (translateGithubToTnosContext currentVersion nowIso githubRequest).who =
      .str "GitHub Copilot" := rfl

/-- **C2, counterexample.**  A request whose `userContext.identity` is
`"Alice"` is translated with `who = "GitHub Copilot"`, not `"Alice"` as the
claim requires. -/
theorem C2_counterexample :
    (match c2Request.get "userContext" with
     | some (.obj u) => u.get "identity"
     | _ => none) = some (.str "Alice") ∧
    (translateGithubToTnosContext "3.0" "2025-04-11T00:00:00" c2Request).who ≠
      .str "Alice" := by
  decide

/-- **C4, amended.**  As stated the claim fails for dict messages whose `meta`
is not a dict (`sign_message` raises `TypeError` at the item assignment) and for
messages whose `meta` already contains a `signature` entry (the stale entry is
serialized into the signed digest, so `verify_message` — which deletes the
`signature` key before re-serializing — computes a different digest and rejects
with `Invalid signature`).  Amended claim: for every dict message whose `meta`,
when present, is a dict without a `signature` entry, `sign_message` adds
`meta.message_id`, `meta.timestamp` and `meta.signature`, the signature is the
keyed digest of the sorted-key canonical JSON of the signed frame minus its
signature field, and an immediate `verify_message` (same clock, unseen id)
accepts the frame. -/
theorem C4_sign_then_verify (hmac : String → String) (newId : String) (now : QNum)
    (state : List JVal) (fields mfs : JObj)
    (hmeta : fields.getD "meta" (.obj .nil) = .obj mfs)
    (hnosig : mfs.hasKey "signature" = false)
    (hstate : (JVal.str newId) ∉ state) :
    ∃ signed mfs₂ : JObj,
      signMessage hmac newId now (.obj fields) = .ok (.obj signed) ∧
      signed.get "meta" = some (.obj mfs₂) ∧
      mfs₂.get "message_id" = some (.str newId) ∧
      mfs₂.get "timestamp" = some (.num now) ∧
      mfs₂.get "signature" =
        some (.str (hmac (canonDumps (stripSignature (.obj signed))))) ∧
      verifyMessage hmac now state (.obj signed) =
        ⟨.ret true "Message verified", dequeAppend 1000 state (.str newId)⟩ := by
  have hm1sig : ((mfs.set "message_id" (.str newId)).set "timestamp" (.num now)).hasKey
      "signature" = false := by
    rw [JObj.hasKey_set_ne _ _ _ _ (by decide), JObj.hasKey_set_ne _ _ _ _ (by decide), hnosig]
  refine ⟨_, _, signMessage_eq hmac newId now fields mfs hmeta,
    JObj.get_set_self _ _ _, ?_, ?_, ?_,
    signed_frame_verifies hmac newId now state fields mfs hnosig hstate⟩
  · rw [JObj.get_set_ne _ _ _ _ (by decide), JObj.get_set_ne _ _ _ _ (by decide),
      JObj.get_set_self]
  · rw [JObj.get_set_ne _ _ _ _ (by decide), JObj.get_set_self]
  · have hstrip : stripSignature (.obj ((fields.set "meta"
        (.obj ((mfs.set "message_id" (.str newId)).set "timestamp" (.num now)))).set "meta"
        (.obj (((mfs.set "message_id" (.str newId)).set "timestamp" (.num now)).set "signature"
          (.str (hmac (canonDumps (.obj (fields.set "meta"
            (.obj ((mfs.set "message_id" (.str newId)).set "timestamp" (.num now)))))))))))) =
        .obj (fields.set "meta"
          (.obj ((mfs.set "message_id" (.str newId)).set "timestamp" (.num now)))) := by
      simp only [stripSignature, JObj.getD, JObj.get_set_self, Option.getD_some]
      rw [JObj.erase_set_of_not_hasKey _ _ _ hm1sig, JObj.set_set_same, JObj.set_set_same]
    rw [JObj.get_set_self, hstrip]

/-- Witness for C4: the empty dict, signed with id `"w4"` at time `0` under the
identity digest, against an empty replay table. -/
theorem C4_sign_then_verify_witness :
    JObj.nil.getD "meta" (.obj .nil) = .obj .nil ∧
    JObj.nil.hasKey "signature" = false ∧
    (JVal.str "w4") ∉ ([] : List JVal) ∧
    (∃ signed mfs₂ : JObj,
      signMessage idFun "w4" (QNum.int 0) (.obj .nil) = .ok (.obj signed) ∧
      signed.get "meta" = some (.obj mfs₂) ∧
      mfs₂.get "message_id" = some (.str "w4") ∧
      mfs₂.get "timestamp" = some (.num (QNum.int 0)) ∧
      mfs₂.get "signature" =
        some (.str (idFun (canonDumps (stripSignature (.obj signed))))) ∧
      verifyMessage idFun (QNum.int 0) [] (.obj signed) =
        ⟨.ret true "Message verified", dequeAppend 1000 [] (.str "w4")⟩) :=
  ⟨rfl, rfl, by simp,
    C4_sign_then_verify idFun "w4" (QNum.int 0) [] .nil .nil rfl rfl (by simp)⟩

/-- **C4, counterexample.**  Signing a dict whose `meta` already holds a
`signature` entry and verifying the result at once — fresh timestamp, unseen
message id — is rejected with `Invalid signature`: `sign_message` digests the
frame *with* the stale `signature` entry, `verify_message` digests it without.
(The digest is instantiated with the identity map; rejection holds for every
digest that separates these two distinct serializations.) -/
theorem C4_counterexample :
    (match signMessage idFun "m-1" (QNum.int 0) c4Message with
     | .ok signed => (verifyMessage idFun (QNum.int 0) [] signed).out
     | .exn e => .exn e) = .ret false "Invalid signature" := by
  decide

/-- **C9, confirmed.**  `verify_message` appends the frame's id to the replay
deque *before* checking the signature (lines 486-493 precede 495-508): a
structurally valid, fresh frame with an unseen id but an invalid signature is
rejected, yet mutates the validator — any later frame bearing the same id
(valid signature or not) is rejected as `Message replay detected`. -/
theorem C9_rejection_mutates_replay_table (hmac : String → String)
    (now now₂ ts ts₂ : QNum) (state : List JVal)
    (fields mfs fields₂ mfs₂ : JObj) (i : JVal) (sig : String)
    (hmk : fields.hasKey "meta" = true)
    (hmeta : fields.getD "meta" (.obj .nil) = .obj mfs)
    (hid : mfs.get "message_id" = some i)
    (hts : mfs.get "timestamp" = some (.num ts))
    (hsg : mfs.get "signature" = some (.str sig))
    (hfresh : QNum.blt (QNum.int 300) (now.sub ts) = false)
    (hnew : i ∉ state)
    (hbad : sig ≠ hmac (canonDumps (.obj (fields.set "meta" (.obj (mfs.erase "signature"))))))
    (hmk₂ : fields₂.hasKey "meta" = true)
    (hmeta₂ : fields₂.getD "meta" (.obj .nil) = .obj mfs₂)
    (hid₂ : mfs₂.get "message_id" = some i)
    (hts₂ : mfs₂.get "timestamp" = some (.num ts₂))
    (hsgk₂ : mfs₂.hasKey "signature" = true)
    (hfresh₂ : QNum.blt (QNum.int 300) (now₂.sub ts₂) = false) :
    verifyMessage hmac now state (.obj fields) =
      ⟨.ret false "Invalid signature", dequeAppend 1000 state i⟩ ∧
    i ∈ dequeAppend 1000 state i ∧
    verifyMessage hmac now₂ (dequeAppend 1000 state i) (.obj fields₂) =
      ⟨.ret false "Message replay detected", dequeAppend 1000 state i⟩ := by
  have hmem : i ∈ dequeAppend 1000 state i := by
    unfold dequeAppend
    by_cases h : (state ++ [i]).length > 1000
    · rw [if_pos h, List.drop_append_eq_append_drop]
      have h0 : ((state ++ [i]).length - 1000) - state.length = 0 := by
        simp only [List.length_append, List.length_cons, List.length_nil] at h ⊢
        omega
      rw [h0]
      simp
    · rw [if_neg h]
      simp
  exact ⟨verify_invalid_signature hmac now state fields mfs i ts sig
      hmk hmeta hid hts hsg hfresh hnew hbad,
    hmem,
    verify_replay_detected hmac now₂ (dequeAppend 1000 state i) fields₂ mfs₂ i ts₂
      hmk₂ hmeta₂ hid₂ hts₂ hsgk₂ hfresh₂ hmem⟩

/-- Witness for C9: the frame `{"meta": {"message_id": "x", "timestamp": 0,
"signature": "bad"}}` under the identity digest — `"bad"` is not an object
serialization, so the signature check fails — submitted twice. -/
theorem C9_rejection_mutates_replay_table_witness :
    ((JObj.cons "meta" (.obj (.cons "message_id" (.str "x")
        (.cons "timestamp" (JVal.int 0) (.cons "signature" (.str "bad") .nil)))) .nil) :
      JObj).hasKey "meta" = true ∧
    "bad" ≠ idFun (canonDumps (.obj ((JObj.cons "meta" (.obj (.cons "message_id" (.str "x")
        (.cons "timestamp" (JVal.int 0) (.cons "signature" (.str "bad") .nil)))) .nil).set
        "meta" (.obj ((JObj.cons "message_id" (.str "x")
          (.cons "timestamp" (JVal.int 0) (.cons "signature" (.str "bad") .nil))).erase
          "signature"))))) ∧
    (verifyMessage idFun (QNum.int 0) []
        (.obj (.cons "meta" (.obj (.cons "message_id" (.str "x")
          (.cons "timestamp" (JVal.int 0) (.cons "signature" (.str "bad") .nil)))) .nil)) =
      ⟨.ret false "Invalid signature", dequeAppend 1000 [] (.str "x")⟩ ∧
    (JVal.str "x") ∈ dequeAppend 1000 [] (.str "x") ∧
    verifyMessage idFun (QNum.int 0) (dequeAppend 1000 [] (.str "x"))
        (.obj (.cons "meta" (.obj (.cons "message_id" (.str "x")
          (.cons "timestamp" (JVal.int 0) (.cons "signature" (.str "bad") .nil)))) .nil)) =
      ⟨.ret false "Message replay detected", dequeAppend 1000 [] (.str "x")⟩) :=
  ⟨rfl, by decide,
    C9_rejection_mutates_replay_table idFun (QNum.int 0) (QNum.int 0) (QNum.int 0)
      (QNum.int 0) [] _ _ _ _ (.str "x") "bad"
      rfl rfl rfl rfl rfl (by decide) (by simp) (by decide)
      rfl rfl rfl rfl rfl (by decide)⟩

/-- Whether an iteration of the request loop forwards a frame to the TNOS
socket is decided by the validator verdict, the tool name, the rate limiter
and the socket alone: `verify_message` is never invoked on the inbound path,
and no branch of the loop body reads `meta.message_id`, so the replay table
plays no part in delivery. -/
theorem processGithubMessage_forwarded_char (currentVersion nowIso : String)
    (toolDefs : JArr) (validator : Bool × String) (rs : RateState) (now : QNum)
    (newMsgId : String) (msgNow : QNum) (send : SendOutcome) (recv : RecvOutcome)
    (githubRequest : JObj) :
    (processGithubMessage currentVersion nowIso toolDefs validator rs now newMsgId msgNow
        send recv githubRequest).forwarded.isSome =
      (validator.1
        && (pyStartsWith (requestToolName githubRequest) "tnos_"
            || (alistGet toolMapping (requestToolName githubRequest)).isSome)
        && (checkRateLimit now rs (requestToolName githubRequest)).1
        && send.delivers) := by
  unfold processGithubMessage processTnosReply requestToolName SendOutcome.delivers
  dsimp only
  repeat' split
  all_goals simp_all [Option.isNone_iff_eq_none, Option.isSome_iff_ne_none,
    or_iff_not_imp_left, Bool.not_eq_true]

/-- **C3, amended.**  The claim's quantification over "the last 1000 previously
*accepted* inbound frames" does not match the code: the deque
(`collections.deque(maxlen=1000)`, line 379) records the id of *every* frame
that reaches the replay check — rejected-signature frames included — so an
accepted frame's id can be evicted by fewer than 1000 accepted frames (see the
counterexample).  The claim's further conjunct "and the frame is not delivered
onward" is also false: `verify_message` is implemented but never invoked on any
inbound path — `handle_github_request` parses, validates, rate-limits and
forwards each frame without consulting the validator — so whether a frame is
delivered to the TNOS peer never depends on its `meta.message_id` (third
conjunct; concrete replayed-id delivery in the counterexample).  Amended claim:
a frame whose `meta.message_id` is among the recorded ids of the last 1000
*processed* frames (all frames that passed the structure and freshness checks,
whether or not their signature verified) is rejected *by `verify_message`* with
reason `Message replay detected`, leaving the table unchanged; the table never
holds more than 1000 ids; but the request loop's delivery decision is a
function of the validator verdict, tool name, rate limiter and socket only, so
a replayed id does not prevent delivery. -/
theorem C3_replay_rejected_and_table_bounded (hmac : String → String)
    (now ts : QNum) (state : List JVal) (fields mfs : JObj) (i : JVal)
    (hmk : fields.hasKey "meta" = true)
    (hmeta : fields.getD "meta" (.obj .nil) = .obj mfs)
    (hid : mfs.get "message_id" = some i)
    (hts : mfs.get "timestamp" = some (.num ts))
    (hsgk : mfs.hasKey "signature" = true)
    (hfresh : QNum.blt (QNum.int 300) (now.sub ts) = false)
    (hmem : i ∈ state) :
    verifyMessage hmac now state (.obj fields) =
      ⟨.ret false "Message replay detected", state⟩ ∧
    (∀ (st : List JVal) (j : JVal), st.length ≤ 1000 →
      (dequeAppend 1000 st j).length ≤ 1000) ∧
    (∀ (currentVersion nowIso : String) (toolDefs : JArr) (validator : Bool × String)
        (rs : RateState) (now₂ : QNum) (newMsgId : String) (msgNow : QNum)
        (send : SendOutcome) (recv : RecvOutcome) (req : JObj),
      (processGithubMessage currentVersion nowIso toolDefs validator rs now₂ newMsgId msgNow
          send recv req).forwarded.isSome =
        (validator.1
          && (pyStartsWith (requestToolName req) "tnos_"
              || (alistGet toolMapping (requestToolName req)).isSome)
          && (checkRateLimit now₂ rs (requestToolName req)).1
          && send.delivers)) := by
  refine ⟨verify_replay_detected hmac now state fields mfs i ts
      hmk hmeta hid hts hsgk hfresh hmem, ?_, ?_⟩
  · intro st j h
    unfold dequeAppend
    by_cases hc : (st ++ [j]).length > 1000
    · simp only [hc, if_true, List.length_drop]
      omega
    · simp only [hc, if_false]
      simp only [gt_iff_lt, not_lt] at hc
      exact hc
  · intro currentVersion nowIso toolDefs validator rs now₂ newMsgId msgNow send recv req
    exact processGithubMessage_forwarded_char currentVersion nowIso toolDefs validator rs
      now₂ newMsgId msgNow send recv req

/-- Witness for C3: a fresh, structurally valid frame whose id `"x"` is already
in the table is rejected as a replay. -/
theorem C3_replay_rejected_witness :
    ((JObj.cons "meta" (.obj (.cons "message_id" (.str "x")
        (.cons "timestamp" (JVal.int 0) (.cons "signature" (.str "s") .nil)))) .nil) :
      JObj).hasKey "meta" = true ∧
    (JVal.str "x") ∈ [JVal.str "x"] ∧
    (verifyMessage idFun (QNum.int 0) [JVal.str "x"]
        (.obj (.cons "meta" (.obj (.cons "message_id" (.str "x")
          (.cons "timestamp" (JVal.int 0) (.cons "signature" (.str "s") .nil)))) .nil)) =
      ⟨.ret false "Message replay detected", [JVal.str "x"]⟩ ∧
    (∀ (st : List JVal) (j : JVal), st.length ≤ 1000 →
      (dequeAppend 1000 st j).length ≤ 1000) ∧
    (∀ (currentVersion nowIso : String) (toolDefs : JArr) (validator : Bool × String)
        (rs : RateState) (now₂ : QNum) (newMsgId : String) (msgNow : QNum)
        (send : SendOutcome) (recv : RecvOutcome) (req : JObj),
      (processGithubMessage currentVersion nowIso toolDefs validator rs now₂ newMsgId msgNow
          send recv req).forwarded.isSome =
        (validator.1
          && (pyStartsWith (requestToolName req) "tnos_"
              || (alistGet toolMapping (requestToolName req)).isSome)
          && (checkRateLimit now₂ rs (requestToolName req)).1
          && send.delivers))) :=
  ⟨rfl, by simp,
    C3_replay_rejected_and_table_bounded idFun (QNum.int 0) (QNum.int 0) [JVal.str "x"]
      _ _ (.str "x") rfl rfl rfl rfl rfl (by decide) (by simp)⟩

/-- **C3, counterexample.**  Frame A (id `"a"`, valid signature) is accepted.
Then 1000 structurally valid, fresh frames with distinct ids and bad signatures
are submitted; every one is rejected (`Invalid signature`), so frame A remains
the single most recently *accepted* frame.  Yet resubmitting the identical
frame A is accepted again — not rejected as a replay — because the 1000
rejected frames displaced `"a"` from the bounded deque.  This falsifies the
claim as stated (its quantification counts *accepted* frames) on a concrete
trace.  The final conjuncts falsify its "not delivered onward" part: with the
id `"a"` recorded in the validator's table, a request frame carrying
`meta.message_id = "a"` is still forwarded to the TNOS socket by the request
loop, which never consults the table. -/
theorem C3_counterexample :
    (verifyMessage idFun (QNum.int 0) [] c3FrameA).out = .ret true "Message verified" ∧
    c3Run.2 = true ∧
    (verifyMessage idFun (QNum.int 0) c3Run.1 c3FrameA).out = .ret true "Message verified" ∧
    (JVal.str "a") ∈ (verifyMessage idFun (QNum.int 0) [] c3FrameA).messageIds ∧
    c3ReplayedReq.getD "meta" (.obj .nil) =
      .obj (.cons "message_id" (.str "a") .nil) ∧
    (processGithubMessage "3.0" "t0" .nil (true, "ok") RateState.init (QNum.int 0) "m1"
        (QNum.int 0) .sent .timeout c3ReplayedReq).forwarded.isSome = true := by
  have hnotin : (JVal.str "a") ∉ (List.range 1000).map (fun k => JVal.str (c3FillerId k)) := by
    intro hm
    rcases List.mem_map.mp hm with ⟨k, _, he⟩
    exact c3FillerId_ne_a k (by simpa using he)
  refine ⟨?_, ?_, ?_, ?_, ?_, ?_⟩
  · rw [c3FrameA_eq, signed_frame_verifies idFun "a" (QNum.int 0) [] .nil .nil rfl (by simp)]
  · rw [c3Run_eq]
  · rw [c3Run_eq, c3FrameA_eq,
      signed_frame_verifies idFun "a" (QNum.int 0) _ .nil .nil rfl hnotin]
  · rw [c3FrameA_eq, signed_frame_verifies idFun "a" (QNum.int 0) [] .nil .nil rfl (by simp)]
    decide
  · decide
  · decide

/-- **C1, amended.**  The round trip is not the identity on `{name, id,
parameters}`: `translate_tnos_to_github_response` (lines 1241-1255) builds a
dict with exactly the keys `result` and `metadata`, so `name` and `id` are
absent from the result altogether.  Amended claim: for every external request
whose `parameters` is a dict, translating to the internal shape and back yields
a dict with exactly the keys `result` and `metadata`, whose `result` equals the
request's `parameters`; the fields `name` and `id` are not preserved (they are
absent). -/
theorem C1_roundtrip_drops_name_and_id (currentVersion nowIso msgId : String)
    (ts : QNum) (x : JObj) (params : JObj)
    (hparams : x.get "parameters" = some (.obj params)) :
    ∃ r : JObj,
      roundTrip currentVersion nowIso msgId ts x = .obj r ∧
      r.get "result" = some (.obj params) ∧
      r.get "name" = none ∧
      r.get "id" = none ∧
      r.keys = ["result", "metadata"] := by
  have hc : x.getD "parameters" (.obj .nil) = .obj params := by
    rw [JObj.getD, hparams]
    rfl
  unfold roundTrip translateTnosToGithubResponse
  dsimp only
  rw [hc]
  exact ⟨_, rfl, rfl, rfl, rfl, rfl⟩

/-- Witness for C1 at a concrete well-formed request. -/
theorem C1_roundtrip_drops_name_and_id_witness :
    reqFC.get "parameters" = some (.obj .nil) ∧
    (∃ r : JObj,
      roundTrip "3.0" "t0" "m1" (QNum.int 0) reqFC = .obj r ∧
      r.get "result" = some (.obj .nil) ∧
      r.get "name" = none ∧
      r.get "id" = none ∧
      r.keys = ["result", "metadata"]) :=
  ⟨rfl, C1_roundtrip_drops_name_and_id "3.0" "t0" "m1" (QNum.int 0) reqFC .nil rfl⟩

/-- **C1, counterexample.**  For the well-formed request `reqFC` (name
`get_file_contents`, id `req-1`, parameters `{}`), the round trip through the
two translators produces a value with no `name` field at all, so it does not
equal the request on `name`. -/
theorem C1_counterexample :
    reqFC.get "name" = some (.str "get_file_contents") ∧
    (match roundTrip "3.0" "t0" "m1" (QNum.int 0) reqFC with
     | .obj r => r.get "name"
     | _ => some .null) = none := by
  decide

/-- **C5, confirmed.**  For every request the loop body actually forwards to the
TNOS peer, if the `asyncio.wait_for(..., timeout=30.0)` receive times out
(lines 1510-1536; `tnosResponseTimeoutSeconds = 30`), the originating GitHub
session receives exactly one frame, the error frame with `errorType "timeout"`
and `recoverable = true` — in particular no result frame is delivered for that
request, whose processing ends at the `continue`. -/
theorem C5_timeout_single_error (currentVersion nowIso : String) (toolDefs : JArr)
    (validator : Bool × String) (rs : RateState) (now : QNum) (newMsgId : String)
    (msgNow : QNum) (send : SendOutcome) (githubRequest : JObj) (m : MCPMessage)
    (hfwd : (processGithubMessage currentVersion nowIso toolDefs validator rs now newMsgId
        msgNow send .timeout githubRequest).forwarded = some m) :
    (processGithubMessage currentVersion nowIso toolDefs validator rs now newMsgId msgNow
        send .timeout githubRequest).sent =
      [.obj (JObj.ofList
        [("error", .str ("Timeout waiting for response from TNOS MCP server for operation: "
            ++ pyStr (translateGithubToTnosContext currentVersion nowIso githubRequest).what)),
         ("status", .str "error"),
         ("errorType", .str "timeout"), ("recoverable", .bool true)])] := by
  revert hfwd
  unfold processGithubMessage
  dsimp only
  repeat' split
  all_goals intro hfwd
  all_goals first
    | simp at hfwd
    | rfl

/-- Witness for C5: a valid `get_file_contents` request forwarded from a fresh
rate-limiter state, with the receive timing out. -/
theorem C5_timeout_single_error_witness :
    (processGithubMessage "3.0" "t0" .nil (true, "ok") RateState.init (QNum.int 0) "m1"
        (QNum.int 0) .sent .timeout reqFC).forwarded =
      some ⟨"m1", "request", .obj .nil, QNum.int 0,
        translateGithubToTnosContext "3.0" "t0" reqFC⟩ ∧
    (processGithubMessage "3.0" "t0" .nil (true, "ok") RateState.init (QNum.int 0) "m1"
        (QNum.int 0) .sent .timeout reqFC).sent =
      [.obj (JObj.ofList
        [("error", .str ("Timeout waiting for response from TNOS MCP server for operation: "
            ++ pyStr (translateGithubToTnosContext "3.0" "t0" reqFC).what)),
         ("status", .str "error"),
         ("errorType", .str "timeout"), ("recoverable", .bool true)])] :=
  ⟨by decide,
    C5_timeout_single_error "3.0" "t0" .nil (true, "ok") RateState.init (QNum.int 0) "m1"
      (QNum.int 0) .sent reqFC
      ⟨"m1", "request", .obj .nil, QNum.int 0, translateGithubToTnosContext "3.0" "t0" reqFC⟩
      (by decide)⟩

/-- A request for a `tnos_`-prefixed tool that is not in the GitHub tool
mapping. -/
def c6Request : JObj :=
  JObj.ofList [("name", .str "tnos_compression"), ("parameters", .obj .nil)]

theorem JArr.toList_ofList : ∀ l : List JVal, (JArr.ofList l).toList = l
  | [] => rfl
  | v :: tl => by simp [JArr.ofList, JArr.toList, JArr.toList_ofList tl]

/-- **C6, amended.**  The tool check at lines 1423-1426 exempts every name that
starts with `tnos_`: such names are *not* keys of the tool mapping yet are not
rejected (see the counterexample), so the claim's quantification over "every
request whose name is not a key of the mapping" fails.  Amended claim: every
validated request whose name neither starts with `tnos_` nor is a key of the
tool-name-to-capability mapping is rejected with an `unsupported_tool` error
whose `suggestions` payload starts with the list of known tool names, and is
not forwarded to the TNOS peer. -/
theorem C6_unsupported_tool_rejected (currentVersion nowIso : String) (toolDefs : JArr)
    (vmsg : String) (rs : RateState) (now : QNum) (newMsgId : String) (msgNow : QNum)
    (send : SendOutcome) (recv : RecvOutcome) (githubRequest : JObj) (s : String)
    (hname : githubRequest.getD "name" (.str "") = .str s)
    (hpre : pyStartsWith s "tnos_" = false)
    (hmap : alistGet toolMapping s = none) :
    processGithubMessage currentVersion nowIso toolDefs (true, vmsg) rs now newMsgId msgNow
        send recv githubRequest =
      { sent := [.obj (JObj.ofList
          [("error", .str ("Unsupported tool: " ++ s)), ("status", .str "error"),
           ("errorType", .str "unsupported_tool"), ("recoverable", .bool true),
           ("suggestions", .arr (toolSuggestions toolDefs))])],
        forwarded := none, rateState := rs } ∧
    (∃ tail, (toolSuggestions toolDefs).toList =
      (toolMapping.map (fun p => JVal.str p.1)) ++ tail) := by
  constructor
  · unfold processGithubMessage
    dsimp only
    rw [hname]
    simp [hpre, hmap]
  · exact ⟨_, JArr.toList_ofList _⟩

/-- Witness for C6: the name `frobnicate` is neither `tnos_`-prefixed nor
mapped, and is rejected. -/
theorem C6_unsupported_tool_rejected_witness :
    (JObj.ofList [("name", .str "frobnicate"), ("parameters", .obj .nil)]).getD "name"
      (.str "") = .str "frobnicate" ∧
    pyStartsWith "frobnicate" "tnos_" = false ∧
    alistGet toolMapping "frobnicate" = none ∧
    (processGithubMessage "3.0" "t0" .nil (true, "ok") RateState.init (QNum.int 0) "m1"
        (QNum.int 0) .sent (.response sampleTnosResponse)
        (JObj.ofList [("name", .str "frobnicate"), ("parameters", .obj .nil)]) =
      { sent := [.obj (JObj.ofList
          [("error", .str ("Unsupported tool: " ++ "frobnicate")), ("status", .str "error"),
           ("errorType", .str "unsupported_tool"), ("recoverable", .bool true),
           ("suggestions", .arr (toolSuggestions .nil))])],
        forwarded := none, rateState := RateState.init } ∧
    (∃ tail, (toolSuggestions .nil).toList =
      (toolMapping.map (fun p => JVal.str p.1)) ++ tail)) :=
  ⟨by decide, by decide, by decide,
    C6_unsupported_tool_rejected "3.0" "t0" .nil "ok" RateState.init (QNum.int 0) "m1"
      (QNum.int 0) .sent (.response sampleTnosResponse)
      (JObj.ofList [("name", .str "frobnicate"), ("parameters", .obj .nil)]) "frobnicate"
      (by decide) (by decide) (by decide)⟩

/-- **C6, counterexample.**  `tnos_compression` is not a key of the tool
mapping, yet the request is not rejected as `unsupported_tool`: it is forwarded
to the TNOS peer, and no frame sent to the session carries
`errorType unsupported_tool`. -/
theorem C6_counterexample :
    alistGet toolMapping "tnos_compression" = none ∧
    ((processGithubMessage "3.0" "t0" .nil (true, "ok") RateState.init (QNum.int 0) "m1"
        (QNum.int 0) .sent (.response sampleTnosResponse) c6Request).forwarded).isSome =
      true ∧
    (∀ f ∈ (processGithubMessage "3.0" "t0" .nil (true, "ok") RateState.init (QNum.int 0)
        "m1" (QNum.int 0) .sent (.response sampleTnosResponse) c6Request).sent,
      (match f with | .obj r => r.get "errorType" | _ => none) ≠
        some (.str "unsupported_tool")) := by
  decide

/-- **C8, amended.**  The bridge never signs what it sends: `sign_message` is
implemented (lines 417-447) but `handle_github_request` serializes plain dicts
without calling it — the frames written back to the GitHub session (lines
1403-1418, 1554-1560) carry no `meta` at all, and the frame written to the
TNOS socket (line 1480) is `tnos_message.to_json()`, the serialization of an
`MCPMessage` dict whose keys are exactly `message_id, message_type, content,
timestamp, context` — no `meta`, no `signature` (see the counterexample).
Amended claim: every frame *returned by `sign_message`* (for a dict message
with dict or absent `meta`) carries a non-empty `meta.signature`, the
non-empty message id, and a timestamp; but every frame the request loop
actually sends to the GitHub client has no `meta` entry whatsoever, and every
frame it forwards to the TNOS socket serializes a dict with neither a `meta`
nor a `signature` key. -/
theorem C8_signed_vs_bridge_frames (hmac : String → String) (newId : String) (now : QNum)
    (fields mfs : JObj)
    (hmeta : fields.getD "meta" (.obj .nil) = .obj mfs)
    (hsig : ∀ s, hmac s ≠ "") (hid : newId ≠ "")
    (currentVersion nowIso : String) (toolDefs : JArr) (validator : Bool × String)
    (rs : RateState) (now₂ : QNum) (newMsgId : String) (msgNow : QNum)
    (send : SendOutcome) (recv : RecvOutcome) (githubRequest : JObj) :
    (∃ signed mfs₂ sg,
      signMessage hmac newId now (.obj fields) = .ok (.obj signed) ∧
      signed.get "meta" = some (.obj mfs₂) ∧
      mfs₂.get "signature" = some (.str sg) ∧ sg ≠ "" ∧
      mfs₂.get "message_id" = some (.str newId) ∧ newId ≠ "" ∧
      mfs₂.get "timestamp" = some (.num now)) ∧
    (∀ f ∈ (processGithubMessage currentVersion nowIso toolDefs validator rs now₂ newMsgId
        msgNow send recv githubRequest).sent,
      ∃ r : JObj, f = .obj r ∧ r.hasKey "meta" = false) ∧
    (∀ m, (processGithubMessage currentVersion nowIso toolDefs validator rs now₂ newMsgId
        msgNow send recv githubRequest).forwarded = some m →
      m.toJson = (JVal.obj m.toDict).dumps ∧
      m.toDict.keys = ["message_id", "message_type", "content", "timestamp", "context"] ∧
      m.toDict.hasKey "meta" = false ∧
      m.toDict.hasKey "signature" = false) := by
  refine ⟨?_, ?_, ?_⟩
  · refine ⟨_, _, _, signMessage_eq hmac newId now fields mfs hmeta,
      JObj.get_set_self _ _ _, JObj.get_set_self _ _ _, hsig _, ?_, hid, ?_⟩
    · rw [JObj.get_set_ne _ _ _ _ (by decide), JObj.get_set_ne _ _ _ _ (by decide),
        JObj.get_set_self]
    · rw [JObj.get_set_ne _ _ _ _ (by decide), JObj.get_set_self]
  · intro f hf
    revert hf
    unfold processGithubMessage processTnosReply translateTnosToGithubResponse
    dsimp only
    repeat' split
    all_goals intro hf
    all_goals simp only [List.mem_singleton] at hf
    all_goals subst hf
    all_goals exact ⟨_, rfl, rfl⟩
  · intro m _
    exact ⟨rfl, rfl, rfl, rfl⟩

/-- Witness for C8, with a constant non-empty digest function. -/
theorem C8_signed_vs_bridge_frames_witness :
    JObj.nil.getD "meta" (.obj .nil) = .obj .nil ∧
    ("w8" : String) ≠ "" ∧
    ((∃ signed mfs₂ sg,
      signMessage (fun _ => "h") "w8" (QNum.int 0) (.obj .nil) = .ok (.obj signed) ∧
      signed.get "meta" = some (.obj mfs₂) ∧
      mfs₂.get "signature" = some (.str sg) ∧ sg ≠ "" ∧
      mfs₂.get "message_id" = some (.str "w8") ∧ ("w8" : String) ≠ "" ∧
      mfs₂.get "timestamp" = some (.num (QNum.int 0))) ∧
    (∀ f ∈ (processGithubMessage "3.0" "t0" .nil (true, "ok") RateState.init (QNum.int 0)
        "m1" (QNum.int 0) .sent (.response sampleTnosResponse) reqFC).sent,
      ∃ r : JObj, f = .obj r ∧ r.hasKey "meta" = false) ∧
    (∀ m, (processGithubMessage "3.0" "t0" .nil (true, "ok") RateState.init (QNum.int 0)
        "m1" (QNum.int 0) .sent (.response sampleTnosResponse) reqFC).forwarded = some m →
      m.toJson = (JVal.obj m.toDict).dumps ∧
      m.toDict.keys = ["message_id", "message_type", "content", "timestamp", "context"] ∧
      m.toDict.hasKey "meta" = false ∧
      m.toDict.hasKey "signature" = false)) :=
  ⟨rfl, by decide,
    C8_signed_vs_bridge_frames (fun _ => "h") "w8" (QNum.int 0) .nil .nil rfl
      (fun s => by simp) (by decide) "3.0" "t0" .nil (true, "ok") RateState.init
      (QNum.int 0) "m1" (QNum.int 0) .sent (.response sampleTnosResponse) reqFC⟩

/-- **C8, counterexample.**  A successfully answered `get_file_contents`
request: the bridge sends exactly one outbound frame, and it has no `meta`
entry — hence neither a signature, nor a message id, nor a timestamp —
falsifying the claim that every outbound frame carries a non-empty
`meta.signature`. -/
theorem C8_counterexample :
    (processGithubMessage "3.0" "t0" .nil (true, "ok") RateState.init (QNum.int 0) "m1"
        (QNum.int 0) .sent (.response sampleTnosResponse) reqFC).sent ≠ [] ∧
    (∀ f ∈ (processGithubMessage "3.0" "t0" .nil (true, "ok") RateState.init (QNum.int 0)
        "m1" (QNum.int 0) .sent (.response sampleTnosResponse) reqFC).sent,
      (match f with | .obj r => r.hasKey "meta" | _ => true) = false) := by
  decide

theorem alistGet_set_self {α : Type} : ∀ (l : List (String × α)) (k : String) (v : α),
    alistGet (alistSet l k v) k = some v
  | [], k, v => by simp [alistSet, alistGet]
  | (k', v') :: tl, k, v => by
    by_cases h : k' = k
    · simp [alistSet, alistGet, h]
    · simp [alistSet, alistGet, h, alistGet_set_self tl k v]

/-- **C7, confirmed.**  `check_rate_limit` (lines 942-991) admits a request for
a tool with a per-tool bucket iff the global window holds strictly fewer than
100 admitted timestamps *and* the tool window strictly fewer than its limit; a
denied call appends no timestamp to either bucket (only the stale-entry
cleaning persists, and on a global denial the tool list is not even touched);
and whenever the loop body reaches a denied rate check, the session receives
exactly the `rate_limit_exceeded` frame with `recoverable = true` and a
`remaining_quota` payload, and nothing is forwarded.  (The per-tool buckets are
keyed by editor tool names and the mapping by GitHub tool names, so the bridge
path exercises the global bucket; the admission iff is about the limiter
component itself, which `update_limits` can re-key.) -/
theorem C7_rate_limit_admission (currentVersion nowIso : String) (toolDefs : JArr)
    (vmsg : String) (rs : RateState) (now : QNum) (newMsgId : String) (msgNow : QNum)
    (send : SendOutcome) (recv : RecvOutcome) (githubRequest : JObj)
    (s : String) (lim : Nat) (tl : List QNum)
    (hlim : alistGet toolLimits s = some lim)
    (htr : alistGet rs.toolRequests s = some tl) :
    ((checkRateLimit now rs s).1 = true ↔
      ((cleanOldRequests now rs.globalRequests).length < globalLimit ∧
       (cleanOldRequests now tl).length < lim)) ∧
    ((checkRateLimit now rs s).1 = false →
      ((checkRateLimit now rs s).2.globalRequests = cleanOldRequests now rs.globalRequests ∧
       (alistGet (checkRateLimit now rs s).2.toolRequests s = some tl ∨
        alistGet (checkRateLimit now rs s).2.toolRequests s =
          some (cleanOldRequests now tl)))) ∧
    (∀ (rs' : RateState) (s' : String),
      githubRequest.getD "name" (.str "") = .str s' →
      (pyStartsWith s' "tnos_" = true ∨ (alistGet toolMapping s').isSome = true) →
      (checkRateLimit now rs' s').1 = false →
      ∃ q rs₂,
        processGithubMessage currentVersion nowIso toolDefs (true, vmsg) rs' now newMsgId
            msgNow send recv githubRequest =
          { sent := [.obj (JObj.ofList
              [("error", .str ("Rate limit exceeded for tool: " ++ s')),
               ("status", .str "error"),
               ("errorType", .str "rate_limit_exceeded"), ("recoverable", .bool true),
               ("remaining_quota", .obj q)])],
            forwarded := none, rateState := rs₂ }) := by
  have hck : checkRateLimit now rs s =
      if globalLimit ≤ (cleanOldRequests now rs.globalRequests).length then
        (false, { rs with
          globalRequests := cleanOldRequests now rs.globalRequests,
          exceededAttempts := trackExceeded now rs.exceededAttempts "global" s })
      else if lim ≤ (cleanOldRequests now tl).length then
        (false, { rs with
          globalRequests := cleanOldRequests now rs.globalRequests,
          toolRequests := alistSet rs.toolRequests s (cleanOldRequests now tl),
          exceededAttempts := trackExceeded now rs.exceededAttempts s s })
      else
        (true, { rs with
          globalRequests := cleanOldRequests now rs.globalRequests ++ [now],
          toolRequests := alistSet (alistSet rs.toolRequests s (cleanOldRequests now tl)) s
            (cleanOldRequests now tl ++ [now]) }) := by
    unfold checkRateLimit
    dsimp only
    rw [htr, hlim]
  refine ⟨?_, ?_, ?_⟩
  · rw [hck]
    by_cases hg : globalLimit ≤ (cleanOldRequests now rs.globalRequests).length
    · simp [hg]
    · by_cases ht : lim ≤ (cleanOldRequests now tl).length <;> simp [hg, ht] <;> omega
  · intro hdeny
    rw [hck] at hdeny ⊢
    by_cases hg : globalLimit ≤ (cleanOldRequests now rs.globalRequests).length
    · simp [hg]
      exact Or.inl htr
    · by_cases ht : lim ≤ (cleanOldRequests now tl).length
      · simp [hg, ht]
        exact Or.inr (alistGet_set_self _ _ _)
      · simp [hg, ht] at hdeny
  · intro rs' s' hname hsupp hdeny
    have hcond : (!(pyStartsWith s' "tnos_") && (alistGet toolMapping s').isNone) = false := by
      rcases hsupp with h | h
      · simp [h]
      · rcases Option.isSome_iff_exists.mp h with ⟨c, hc⟩
        simp [hc]
    unfold processGithubMessage
    dsimp only
    rw [hname]
    simp only [hcond, Bool.not_true, if_false, Bool.false_eq_true, ite_false, ite_true]
    rcases hck2 : checkRateLimit now rs' s' with ⟨allowed, rs₁⟩
    have hall : allowed = false := by rw [hck2] at hdeny; exact hdeny
    subst hall
    rcases hq : getRemainingQuota now rs₁ s' with ⟨q, rs₂⟩
    refine ⟨q, rs₂, ?_⟩
    simp [hck2, hq]


/-- Witness for C7: `run_in_terminal` (limit 5) with five fresh timestamps is
denied by the tool bucket; a `tnos_compression` request against a full global
bucket is denied and receives the quota frame. -/
theorem C7_rate_limit_admission_witness :
    alistGet toolLimits "run_in_terminal" = some 5 ∧
    alistGet (RateState.mk [] [("run_in_terminal", List.replicate 5 (QNum.int 0))]
      []).toolRequests "run_in_terminal" = some (List.replicate 5 (QNum.int 0)) ∧
    (((checkRateLimit (QNum.int 0)
        (RateState.mk [] [("run_in_terminal", List.replicate 5 (QNum.int 0))] [])
        "run_in_terminal").1 = true ↔
      ((cleanOldRequests (QNum.int 0) ([] : List QNum)).length < globalLimit ∧
       (cleanOldRequests (QNum.int 0) (List.replicate 5 (QNum.int 0))).length < 5)) ∧
    ((checkRateLimit (QNum.int 0)
        (RateState.mk [] [("run_in_terminal", List.replicate 5 (QNum.int 0))] [])
        "run_in_terminal").1 = false →
      (((checkRateLimit (QNum.int 0)
          (RateState.mk [] [("run_in_terminal", List.replicate 5 (QNum.int 0))] [])
          "run_in_terminal").2.globalRequests =
            cleanOldRequests (QNum.int 0) ([] : List QNum)) ∧
       (alistGet ((checkRateLimit (QNum.int 0)
            (RateState.mk [] [("run_in_terminal", List.replicate 5 (QNum.int 0))] [])
            "run_in_terminal").2.toolRequests) "run_in_terminal" =
              some (List.replicate 5 (QNum.int 0)) ∨
        alistGet ((checkRateLimit (QNum.int 0)
            (RateState.mk [] [("run_in_terminal", List.replicate 5 (QNum.int 0))] [])
            "run_in_terminal").2.toolRequests) "run_in_terminal" =
              some (cleanOldRequests (QNum.int 0) (List.replicate 5 (QNum.int 0)))))) ∧
    (∀ (rs' : RateState) (s' : String),
      c6Request.getD "name" (.str "") = .str s' →
      (pyStartsWith s' "tnos_" = true ∨ (alistGet toolMapping s').isSome = true) →
      (checkRateLimit (QNum.int 0) rs' s').1 = false →
      ∃ q rs₂,
        processGithubMessage "3.0" "t0" .nil (true, "ok") rs' (QNum.int 0) "m1"
            (QNum.int 0) .sent (.response sampleTnosResponse) c6Request =
          { sent := [.obj (JObj.ofList
              [("error", .str ("Rate limit exceeded for tool: " ++ s')),
               ("status", .str "error"),
               ("errorType", .str "rate_limit_exceeded"), ("recoverable", .bool true),
               ("remaining_quota", .obj q)])],
            forwarded := none, rateState := rs₂ })) :=
  ⟨by decide, by decide,
    C7_rate_limit_admission "3.0" "t0" .nil "ok"
      (RateState.mk [] [("run_in_terminal", List.replicate 5 (QNum.int 0))] [])
      (QNum.int 0) "m1" (QNum.int 0) .sent (.response sampleTnosResponse) c6Request
      "run_in_terminal" 5 (List.replicate 5 (QNum.int 0)) (by decide) (by decide)⟩

/-- **C10, amended.**  Decompression recovers the *serialized* data and then
re-parses it exactly when the (stripped) payload starts with `\x7b` or `[`
(mobius_compression.py 214-229): a non-string input whose serialization is not
an object/array rendering (e.g. the number `42`) comes back as the *string*
`"42"` rather than re-parsed, and a string input that happens to look like JSON
comes back parsed rather than verbatim — both contradicting the claim as
stated.  A further failure of the original "for every parameter dict": when
`params["context"]` is present but not a dict, `extract_context_factors` raises
`AttributeError` at `context.get("who")` and `compress` returns
`success = False` (lines 156-163), so the hypothesis `hctx` restricts to
parameter dicts whose `context` entry, when present, is a dict.  Amended claim:
for every input and every parameter dict whose `context` entry (if any) is a
dict, `compress` succeeds and embeds the serialized input verbatim in the
package, and `decompress` of the result succeeds with data equal to the
serialized input re-parsed when it looks like JSON, and the raw serialized
string otherwise.  (The claim is taken modulo the `json.loads ∘ json.dumps`
identity on the concrete package, stated as the hypothesis `hpkg` and
discharged by evaluation in the witness; the float-valued Möbius quantities are
an opaque oracle that the data path provably never consults.) -/
theorem C10_compress_decompress (oracle : String → JVal → Bool → Bool → MobiusNums)
    (invOracle : JObj → QNum × QNum) (nowMs nowMs₂ : ℤ) (data : JVal) (params : JObj)
    (hctx : (params.getD "context" (.obj .nil)).isObj = true)
    (hpkg : jsonLoads ((JVal.obj (mobiusPackageOf oracle data params)).dumps) =
      some (.obj (mobiusPackageOf oracle data params))) :
    (MobiusCompression.compress oracle nowMs data params).get "success" =
      some (.bool true) ∧
    (MobiusCompression.decompress invOracle nowMs₂
        (MobiusCompression.compress oracle nowMs data params)).get "success" =
      some (.bool true) ∧
    (MobiusCompression.decompress invOracle nowMs₂
        (MobiusCompression.compress oracle nowMs data params)).get "data" =
      some (reparseIfJson (.str (mobiusDataStr data))) := by
  have hsucc : (MobiusCompression.compress oracle nowMs data params).get "success" =
      some (.bool true) := by
    unfold MobiusCompression.compress
    dsimp only
    rw [hctx]
    rfl
  have hdata : (MobiusCompression.compress oracle nowMs data params).getD "data" (.str "") =
      .str ((JVal.obj (mobiusPackageOf oracle data params)).dumps) := by
    unfold MobiusCompression.compress
    dsimp only
    rw [hctx]
    rfl
  have hdec : MobiusCompression.decompress invOracle nowMs₂
      (MobiusCompression.compress oracle nowMs data params) =
      JObj.ofList
        [("success", .bool true), ("data", reparseIfJson (.str (mobiusDataStr data))),
         ("metadata", (MobiusCompression.compress oracle nowMs data params).getD "metadata"
            (.obj .nil)),
         ("timestamp", JVal.int nowMs₂)] := by
    unfold MobiusCompression.decompress
    dsimp only
    rw [hdata]
    dsimp only
    rw [hpkg]
    rfl
  rw [hdec]
  exact ⟨hsucc, rfl, rfl⟩

set_option maxRecDepth 40000 in
/-- Witness for C10 at the dict input `{"k": "v"}`, the all-zero float oracle,
and empty parameters; here the serialization looks like JSON and the round trip
indeed re-parses it back to the original dict. -/
theorem C10_compress_decompress_witness :
    ((JObj.nil.getD "context" (.obj .nil)).isObj = true) ∧
    jsonLoads ((JVal.obj (mobiusPackageOf (fun _ _ _ _ => c10Zeros)
        (.obj (.cons "k" (.str "v") .nil)) .nil)).dumps) =
      some (.obj (mobiusPackageOf (fun _ _ _ _ => c10Zeros)
        (.obj (.cons "k" (.str "v") .nil)) .nil)) ∧
    ((MobiusCompression.compress (fun _ _ _ _ => c10Zeros) 0
        (.obj (.cons "k" (.str "v") .nil)) .nil).get "success" = some (.bool true) ∧
    (MobiusCompression.decompress (fun _ => (QNum.int 0, QNum.int 0)) 0
        (MobiusCompression.compress (fun _ _ _ _ => c10Zeros) 0
          (.obj (.cons "k" (.str "v") .nil)) .nil)).get "success" = some (.bool true) ∧
    (MobiusCompression.decompress (fun _ => (QNum.int 0, QNum.int 0)) 0
        (MobiusCompression.compress (fun _ _ _ _ => c10Zeros) 0
          (.obj (.cons "k" (.str "v") .nil)) .nil)).get "data" =
      some (reparseIfJson (.str (mobiusDataStr (.obj (.cons "k" (.str "v") .nil)))))) :=
  ⟨by decide, by decide,
    C10_compress_decompress (fun _ _ _ _ => c10Zeros) (fun _ => (QNum.int 0, QNum.int 0))
      0 0 (.obj (.cons "k" (.str "v") .nil)) .nil (by decide) (by decide)⟩

set_option maxRecDepth 40000 in
/-- **C10, counterexample.**  The non-string input `42`: `compress` succeeds,
but `decompress` returns the *string* `"42"`, not the number `42` that the
claim's "re-parsed from JSON when the input was not a string" requires
(`json.loads("42") = 42`), because `"42"` does not start with `\x7b` or `[`. -/
theorem C10_counterexample :
    (MobiusCompression.compress (fun _ _ _ _ => c10Zeros) 0 (JVal.int 42) .nil).get "success"
      = some (.bool true) ∧
    (MobiusCompression.decompress (fun _ => (QNum.int 0, QNum.int 0)) 0
        (MobiusCompression.compress (fun _ _ _ _ => c10Zeros) 0 (JVal.int 42) .nil)).get "data"
      = some (.str "42") ∧
    JVal.str "42" ≠ JVal.int 42 := by
  decide
